import Mathlib

/-!
Verification of the "Outlier Task Count & EQ Reason Display" userscript
(`src/file.js`): a shallow embedding of its page classifier, cookie
credential extractor, network-interception handlers, poll/reconcile tick
and overlay renderer, together with theorems about the stated properties.

JavaScript values flowing through the script are modelled by a small JSON
value type; `undefined` is modelled by `Option.none`, truthiness and
member access follow the JavaScript semantics the script relies on.
-/

/-- JSON values, as produced by a successful `JSON.parse` / `response.json()`. -/
inductive Json where
  | null : Json
  | bool : Bool → Json
  | num : Int → Json
  | str : String → Json
  | arr : List Json → Json
  | obj : List (String × Json) → Json
deriving Repr

mutual

/-- Decidable equality for `Json` (written by hand because the deriving
handler does not support the nested `List` occurrences). -/
def Json.decEq : (a b : Json) → Decidable (a = b)
  | Json.null, Json.null => isTrue rfl
  | Json.bool x, Json.bool y =>
      match inferInstanceAs (Decidable (x = y)) with
      | isTrue h => isTrue (by rw [h])
      | isFalse h => isFalse (fun hh => h (Json.bool.inj hh))
  | Json.num x, Json.num y =>
      match inferInstanceAs (Decidable (x = y)) with
      | isTrue h => isTrue (by rw [h])
      | isFalse h => isFalse (fun hh => h (Json.num.inj hh))
  | Json.str x, Json.str y =>
      match inferInstanceAs (Decidable (x = y)) with
      | isTrue h => isTrue (by rw [h])
      | isFalse h => isFalse (fun hh => h (Json.str.inj hh))
  | Json.arr xs, Json.arr ys =>
      match Json.decEqList xs ys with
      | isTrue h => isTrue (by rw [h])
      | isFalse h => isFalse (fun hh => h (Json.arr.inj hh))
  | Json.obj xs, Json.obj ys =>
      match Json.decEqFields xs ys with
      | isTrue h => isTrue (by rw [h])
      | isFalse h => isFalse (fun hh => h (Json.obj.inj hh))
  | Json.null, Json.bool _ => isFalse (fun h => Json.noConfusion h)
  | Json.null, Json.num _ => isFalse (fun h => Json.noConfusion h)
  | Json.null, Json.str _ => isFalse (fun h => Json.noConfusion h)
  | Json.null, Json.arr _ => isFalse (fun h => Json.noConfusion h)
  | Json.null, Json.obj _ => isFalse (fun h => Json.noConfusion h)
  | Json.bool _, Json.null => isFalse (fun h => Json.noConfusion h)
  | Json.bool _, Json.num _ => isFalse (fun h => Json.noConfusion h)
  | Json.bool _, Json.str _ => isFalse (fun h => Json.noConfusion h)
  | Json.bool _, Json.arr _ => isFalse (fun h => Json.noConfusion h)
  | Json.bool _, Json.obj _ => isFalse (fun h => Json.noConfusion h)
  | Json.num _, Json.null => isFalse (fun h => Json.noConfusion h)
  | Json.num _, Json.bool _ => isFalse (fun h => Json.noConfusion h)
  | Json.num _, Json.str _ => isFalse (fun h => Json.noConfusion h)
  | Json.num _, Json.arr _ => isFalse (fun h => Json.noConfusion h)
  | Json.num _, Json.obj _ => isFalse (fun h => Json.noConfusion h)
  | Json.str _, Json.null => isFalse (fun h => Json.noConfusion h)
  | Json.str _, Json.bool _ => isFalse (fun h => Json.noConfusion h)
  | Json.str _, Json.num _ => isFalse (fun h => Json.noConfusion h)
  | Json.str _, Json.arr _ => isFalse (fun h => Json.noConfusion h)
  | Json.str _, Json.obj _ => isFalse (fun h => Json.noConfusion h)
  | Json.arr _, Json.null => isFalse (fun h => Json.noConfusion h)
  | Json.arr _, Json.bool _ => isFalse (fun h => Json.noConfusion h)
  | Json.arr _, Json.num _ => isFalse (fun h => Json.noConfusion h)
  | Json.arr _, Json.str _ => isFalse (fun h => Json.noConfusion h)
  | Json.arr _, Json.obj _ => isFalse (fun h => Json.noConfusion h)
  | Json.obj _, Json.null => isFalse (fun h => Json.noConfusion h)
  | Json.obj _, Json.bool _ => isFalse (fun h => Json.noConfusion h)
  | Json.obj _, Json.num _ => isFalse (fun h => Json.noConfusion h)
  | Json.obj _, Json.str _ => isFalse (fun h => Json.noConfusion h)
  | Json.obj _, Json.arr _ => isFalse (fun h => Json.noConfusion h)

/-- Decidable equality for lists of `Json`. -/
def Json.decEqList : (xs ys : List Json) → Decidable (xs = ys)
  | [], [] => isTrue rfl
  | [], _ :: _ => isFalse (fun h => List.noConfusion h)
  | _ :: _, [] => isFalse (fun h => List.noConfusion h)
  | x :: xs, y :: ys =>
      match Json.decEq x y with
      | isTrue h1 =>
          match Json.decEqList xs ys with
          | isTrue h2 => isTrue (by rw [h1, h2])
          | isFalse h2 => isFalse (fun hh => h2 (List.cons.inj hh).2)
      | isFalse h1 => isFalse (fun hh => h1 (List.cons.inj hh).1)

/-- Decidable equality for lists of object fields. -/
def Json.decEqFields : (xs ys : List (String × Json)) → Decidable (xs = ys)
  | [], [] => isTrue rfl
  | [], _ :: _ => isFalse (fun h => List.noConfusion h)
  | _ :: _, [] => isFalse (fun h => List.noConfusion h)
  | (k1, v1) :: xs, (k2, v2) :: ys =>
      match inferInstanceAs (Decidable (k1 = k2)) with
      | isTrue hk =>
          match Json.decEq v1 v2 with
          | isTrue hv =>
              match Json.decEqFields xs ys with
              | isTrue h2 => isTrue (by rw [hk, hv, h2])
              | isFalse h2 => isFalse (fun hh => h2 (List.cons.inj hh).2)
          | isFalse hv =>
              isFalse (fun hh => hv (congrArg Prod.snd (List.cons.inj hh).1))
      | isFalse hk =>
          isFalse (fun hh => hk (congrArg Prod.fst (List.cons.inj hh).1))

end

instance : DecidableEq Json := Json.decEq

instance : BEq Json := instBEqOfDecidableEq

deriving instance DecidableEq for Except

/-- First binding for a key in a JS object (objects produced by
`JSON.parse` have unique keys, so first = only). -/
def lookupField : List (String × Json) → String → Option Json
  | [], _ => none
  | (k, v) :: rest, key => if k = key then some v else lookupField rest key

/-- JavaScript member access `base.k` / `base[k]` on a JSON value:
throws a TypeError on `null`, yields the field (or `undefined`, i.e.
`none`) otherwise. -/
def Json.member : Json → String → Except String (Option Json)
  | Json.null, _ => Except.error "TypeError"
  | Json.obj kvs, k => Except.ok (lookupField kvs k)
  | _, _ => Except.ok none

/-- Member access whose base may itself be `undefined` (which also throws). -/
def optMember : Option Json → String → Except String (Option Json)
  | none, _ => Except.error "TypeError"
  | some j, k => Json.member j k

/-- JavaScript truthiness of a possibly-`undefined` value. -/
def truthy : Option Json → Bool
  | none => false
  | some Json.null => false
  | some (Json.bool b) => b
  | some (Json.num n) => !(n == 0)
  | some (Json.str s) => !(s == "")
  | some (Json.arr _) => true
  | some (Json.obj _) => true

/-- Member access that cannot throw, for describing the shape checks the
script performs only on bases already known truthy (hence non-null). -/
def memberSafe (j : Json) (k : String) : Option Json :=
  match Json.member j k with
  | Except.ok v => v
  | Except.error _ => none

/-- String conversion used by JS template literals for the overlay text
(`String(v)`): objects print as "[object Object]", arrays join their
elements with commas (null elements as empty strings). -/
def jsonToDisplay : Json → String
  | Json.null => "null"
  | Json.bool true => "true"
  | Json.bool false => "false"
  | Json.num n => toString n
  | Json.str s => s
  | Json.arr xs =>
      String.intercalate "," (xs.attach.map (fun x =>
        if x.1 = Json.null then "" else jsonToDisplay x.1))
  | Json.obj _ => "[object Object]"
decreasing_by
  have := List.sizeOf_lt_of_mem x.2
  simp only [Json.arr.sizeOf_spec]
  omega

/-! ### String utilities mirroring the JavaScript primitives the script uses -/

/-- JavaScript `String.prototype.includes` on character lists. -/
def containsSeq : List Char → List Char → Bool
  | [], pat => pat.isEmpty
  | c :: rest, pat => pat.isPrefixOf (c :: rest) || containsSeq rest pat

/-- JavaScript `url.includes(pat)`. -/
def strIncludes (s pat : String) : Bool :=
  containsSeq s.data pat.data

/-- The suffix of `l` after the first occurrence of `pat`, if any. -/
def afterSeq : List Char → List Char → Option (List Char)
  | [], pat => if pat.isEmpty then some [] else none
  | c :: rest, pat =>
      if pat.isPrefixOf (c :: rest) then some ((c :: rest).drop pat.length)
      else afterSeq rest pat

/-- JavaScript `String.prototype.split(sep)` with a single-character
separator, on character lists. -/
def splitOnChar (sep : Char) : List Char → List (List Char)
  | [] => [[]]
  | c :: rest =>
      let r := splitOnChar sep rest
      if c = sep then [] :: r
      else
        match r with
        | h :: t => (c :: h) :: t
        | [] => [[c]]

/-- `pathname.split('/')`, as a list of strings. -/
def pathParts (pathname : String) : List String :=
  (splitOnChar '/' pathname.data).map (fun l => String.mk l)

/-- `window.location.pathname` for a full `window.location.href`: the part
after the scheme and host, with any query string or fragment removed. -/
def pathOf (url : String) : String :=
  let rest := (afterSeq url.data ("://".data)).getD url.data
  let p := rest.dropWhile (fun c => !(c == '/'))
  let p2 := p.takeWhile (fun c => !(c == '?') && !(c == '#'))
  if p2.isEmpty then "/" else String.mk p2

/-! ### Page classifier (`isProjectPage`, `getProjectIdFromURL`) -/

/-- `isProjectPage` from the source: the path must be under `/projects`
with a truthy third `split('/')` component different from "history". -/
def isProjectPage (pathname : String) : Bool :=
  (pathParts pathname).get? 1 == some "projects" &&
    (match (pathParts pathname).get? 2 with
     | some s => !(s == "") && !(s == "history")
     | none => false)

/-- `getProjectIdFromURL` from the source: `null` off project pages,
otherwise `parts[2] || null`. -/
def getProjectIdFromURL (pathname : String) : Option String :=
  if !(isProjectPage pathname) then none
  else
    match (pathParts pathname).get? 2 with
    | some s => if s = "" then none else some s
    | none => none

/-! ### URL classification used by the interception layer -/

/-- The bulk remaining-tasks endpoint path tested with `url.includes`. -/
def bulkRemainingTasksPath : String := "/internal/user-projects/bulk-remaining-tasks"

/-- The URL the fallback fetch posts to (and hence the `response.url` its
reply carries). -/
def bulkRemainingTasksUrl : String :=
  "https://app.outlier.ai/internal/user-projects/bulk-remaining-tasks"

/-- The regex `/\/internal\/logged_in_user(\?.*)?$/` holds iff the URL
ends with the literal path, or contains the path immediately followed
by a query string (which then runs to the end). -/
def matchesLoggedInUser (url : String) : Bool :=
  ("/internal/logged_in_user".data).isSuffixOf url.data ||
    strIncludes url "/internal/logged_in_user?"

/-- The anchored regex
`/^https:\/\/app\.outlier\.ai\/projects\/(?!history)[^\/?]+(\?.*)?$/`:
after the fixed prefix there must be a non-empty run of characters other
than `/` and `?`, not preceded by the lookahead word "history", followed
by nothing or by a query string. -/
def matchesProjectDetail (url : String) : Bool :=
  let p := ("https://app.outlier.ai/projects/".data)
  if p.isPrefixOf url.data then
    let m := url.data.drop p.length
    if m.isEmpty then false
    else if ("history".data).isPrefixOf m then false
    else
      let seg := m.takeWhile (fun c => !(c == '/') && !(c == '?'))
      if seg.isEmpty then false
      else
        match m.drop seg.length with
        | [] => true
        | '?' :: _ => true
        | _ => false
  else false

/-! ### State: the two store scalars, the overlay DOM, the log, and the
URL bookkeeping of the script -/

/-- The overlay portion of the DOM: how many elements with id
`tm-outlier-task-count` exist (`document.getElementById` returns the
first; `remove()` removes it), and the text of the textbox. -/
structure DomState where
  count : Nat
  text : String
deriving DecidableEq, Repr

/-- The script's mutable state (`remainingTaskCount`, `emptyQueueReason`,
`lastUrl`), the browsing context it reads (`href`), the overlay DOM, the
`console.error` log, and the multiset of in-flight fallback requests
with the project id each one captured. -/
structure ScriptState where
  remainingTaskCount : Option Json
  emptyQueueReason : Option Json
  lastUrl : String
  href : String
  dom : DomState
  log : List String
  pending : List String
deriving DecidableEq, Repr

/-- State at script start: both store fields `null`, `lastUrl` initialised
to the current location, no overlay, nothing logged, nothing in flight. -/
def initState (href0 : String) : ScriptState :=
  { remainingTaskCount := none, emptyQueueReason := none,
    lastUrl := href0, href := href0,
    dom := { count := 0, text := "" }, log := [], pending := [] }

/-- The two-line text the overlay shows (line 96 of the source). -/
def renderText (st : ScriptState) : String :=
  "Remaining Tasks: " ++
    (match st.remainingTaskCount with
     | some j => jsonToDisplay j
     | none => "N/A") ++
  "\nEQ Reason: " ++
    (match st.emptyQueueReason with
     | some j => jsonToDisplay j
     | none => "N/A")

/-- `updateTextbox` from the source: off project pages remove the overlay
element if present; on project pages create it when absent and set its
text from the store. -/
def updateTextbox (st : ScriptState) : ScriptState :=
  if !(isProjectPage (pathOf st.href)) then
    { st with dom := { count := st.dom.count - 1, text := st.dom.text } }
  else if st.dom.count == 0 then
    { st with dom := { count := 1, text := renderText st } }
  else
    { st with dom := { count := st.dom.count, text := renderText st } }

/-! ### Interception handlers -/

/-- `data.find(item => item.projectId === currentProjectId)`: JS `find`
evaluates the predicate left to right; member access on a `null` element
throws out of `find`. -/
def findMatch (pid : String) : List Json → Except String (Option Json)
  | [] => Except.ok none
  | it :: rest => do
      let p ← Json.member it "projectId"
      if p == some (Json.str pid) then Except.ok (some it)
      else findMatch pid rest

/-- The shared record-matching rule of the bulk remaining-tasks handlers:
if the matched record's `count` is defined, store it and refresh the
overlay. -/
def bulkApply (pid : String) (items : List Json) (st : ScriptState) :
    Except String ScriptState := do
  let pd ← findMatch pid items
  match pd with
  | some it => do
      let c ← Json.member it "count"
      match c with
      | some cv => Except.ok (updateTextbox { st with remainingTaskCount := some cv })
      | none => Except.ok st
  | none => Except.ok st

/-- Body of the bulk remaining-tasks interception branch (fetch lines
151-161, XHR lines 216-226): requires an array body and a current
project id. -/
def bulkBody (d : Json) (st : ScriptState) : Except String ScriptState :=
  match d with
  | Json.arr items =>
      match getProjectIdFromURL (pathOf st.href) with
      | some pid => bulkApply pid items st
      | none => Except.ok st
  | _ => Except.ok st

/-- `reasons[pid]["-1"] || reasons[pid]["4"] || 'N/A'`: JS `||` picks the
first truthy operand. -/
def jsOrPick (v1 v4 : Option Json) : Json :=
  if truthy v1 then v1.getD (Json.str "N/A")
  else if truthy v4 then v4.getD (Json.str "N/A")
  else Json.str "N/A"

/-- The shared empty-queue-reason rule of the `logged_in_user` and
project-detail handlers, applied to the (truthy) `emptyQueueReasons`
value. JS short-circuits `["4"]` when `["-1"]` is truthy; both accesses
are on a truthy base, hence free of side effects, so evaluating both is
equivalent. -/
def applyReasons (rs : Option Json) (pid : String) (st : ScriptState) :
    Except String ScriptState := do
  let rv ← optMember rs pid
  if truthy rv then do
    let v1 ← optMember rv "-1"
    let v4 ← optMember rv "4"
    Except.ok (updateTextbox { st with emptyQueueReason := some (jsOrPick v1 v4) })
  else
    Except.ok (updateTextbox { st with emptyQueueReason := some (Json.str "N/A") })

/-- Body of the `logged_in_user` interception branch (fetch lines
166-178, XHR lines 232-244). -/
def liuBody (d : Json) (st : ScriptState) : Except String ScriptState :=
  if truthy (some d) then do
    let lq ← Json.member d "lastEmptyQueueEvent"
    if truthy lq then do
      let rs ← optMember lq "emptyQueueReasons"
      if truthy rs then
        match getProjectIdFromURL (pathOf st.href) with
        | some pid => applyReasons rs pid st
        | none => Except.ok st
      else Except.ok st
    else Except.ok st
  else Except.ok st

/-- Body of the project-detail interception branch (fetch lines 184-194,
XHR lines 250-260): element 1 of the array body carries the reasons. -/
def projBody (d : Json) (st : ScriptState) : Except String ScriptState :=
  match getProjectIdFromURL (pathOf st.href) with
  | some pid =>
      match d with
      | Json.arr items =>
          if items.length > 1 then do
            let e1 := (items.get? 1).getD Json.null
            let lq ← Json.member e1 "lastEmptyQueueEvent"
            if truthy lq then do
              let rs ← optMember lq "emptyQueueReasons"
              if truthy rs then applyReasons rs pid st
              else Except.ok st
            else Except.ok st
          else Except.ok st
      | _ => Except.ok st
  | none => Except.ok st

/-- The `.catch(e => console.error(msg, e))` / `try ... catch` guard
around each branch: a thrown error only appends a log entry. -/
def runCatch (msg : String) (act : Except String ScriptState)
    (st : ScriptState) : ScriptState :=
  match act with
  | Except.ok st2 => st2
  | Except.error _ => { st with log := msg :: st.log }

/-- One intercepted response (shared by the fetch wrapper, lines 147-201,
and the XHR `load` listener, lines 212-266, whose branch structure is
identical): classify the URL, then parse and process the duplicated body
under the branch's error guard. `body = none` models a body that fails
to parse as JSON. `tag` distinguishes the fetch/XHR log messages. -/
def interceptBody (tag url : String) (body : Option Json)
    (st : ScriptState) : ScriptState :=
  if strIncludes url bulkRemainingTasksPath then
    let msg := "Error parsing JSON from bulk-remaining-tasks " ++ tag ++ " interception"
    match body with
    | none => { st with log := msg :: st.log }
    | some d => runCatch msg (bulkBody d st) st
  else if matchesLoggedInUser url then
    let msg := "Error parsing JSON from logged_in_user " ++ tag ++ " interception"
    match body with
    | none => { st with log := msg :: st.log }
    | some d => runCatch msg (liuBody d st) st
  else if matchesProjectDetail url then
    let msg := "Error parsing JSON from /projects/<id> " ++ tag ++ " interception"
    match body with
    | none => { st with log := msg :: st.log }
    | some d => runCatch msg (projBody d st) st
  else st

/-! ### Fallback fetch and poll/reconcile loop -/

/-- Log message of the fallback fetch's `.catch` (line 141). -/
def pollErrorMsg : String := "Polling bulk-remaining-tasks error:"

/-- The `.then(data => ...)` of `pollForMissingValues` (lines 132-140):
same record rule as the interception, but against the project id the
closure captured when the request was issued. `body = none` models a
network failure or a body that fails to parse. -/
def pollThen (pid : String) (body : Option Json) (st : ScriptState) : ScriptState :=
  match body with
  | none => { st with log := pollErrorMsg :: st.log }
  | some d =>
      match d with
      | Json.arr items => runCatch pollErrorMsg (bulkApply pid items st) st
      | _ => st

/-- Remove one in-flight request for `pid` from the bookkeeping. -/
def removeOnePending (pid : String) : List String → List String
  | [] => []
  | p :: rest => if p = pid then rest else p :: removeOnePending pid rest

/-- One tick of the `setInterval` loop (lines 271-292). Issuing the
fallback request has no synchronous effect on the script state beyond
recording the in-flight request (its response is a later event). -/
def tick (st : ScriptState) : ScriptState :=
  let st1 :=
    if !(st.href == st.lastUrl) then
      let s2 := { st with lastUrl := st.href }
      if isProjectPage (pathOf st.href) then
        updateTextbox { s2 with remainingTaskCount := none, emptyQueueReason := none }
      else
        { s2 with dom := { count := s2.dom.count - 1, text := s2.dom.text } }
    else if isProjectPage (pathOf st.href) && st.dom.count == 0 then
      updateTextbox st
    else st
  if isProjectPage (pathOf st1.href) && st1.remainingTaskCount == none then
    { st1 with
        pending := (getProjectIdFromURL (pathOf st1.href)).getD "" :: st1.pending }
  else st1

/-! ### Event semantics -/

/-- The events the single-threaded script processes: a navigation by the
host page, a timer tick, an observed fetch response, an observed XHR
`load`, and the resolution of an in-flight fallback request. -/
inductive Ev where
  | navigate : String → Ev
  | tick : Ev
  | fetchResponse : String → Option Json → Ev
  | xhrLoad : String → Option Json → Ev
  | pollResolve : String → Option Json → Ev

/-- Effect of one event. A fallback response first passes through the
wrapped fetch (the script calls the already-wrapped `window.fetch`), then
runs the poll's own `.then`; it only fires for a request actually in
flight. -/
def step (st : ScriptState) : Ev → ScriptState
  | Ev.navigate u => { st with href := u }
  | Ev.tick => tick st
  | Ev.fetchResponse url b => interceptBody "fetch" url b st
  | Ev.xhrLoad url b => interceptBody "XHR" url b st
  | Ev.pollResolve pid b =>
      if st.pending.contains pid then
        pollThen pid b
          (interceptBody "fetch" bulkRemainingTasksUrl b
            { st with pending := removeOnePending pid st.pending })
      else st

/-- Run a sequence of events. -/
def run (st : ScriptState) : List Ev → ScriptState
  | [] => st
  | e :: es => run (step st e) es

/-! ### Credential extractor (`getCsrfToken`) -/

/-- Value of a hexadecimal digit. -/
def hexVal (c : Char) : Option Nat :=
  if '0' ≤ c ∧ c ≤ '9' then some (c.toNat - '0'.toNat)
  else if 'a' ≤ c ∧ c ≤ 'f' then some (c.toNat - 'a'.toNat + 10)
  else if 'A' ≤ c ∧ c ≤ 'F' then some (c.toNat - 'A'.toNat + 10)
  else none

/-- UTF-8 bytes of a character. -/
def utf8Bytes (c : Char) : List Nat :=
  let n := c.toNat
  if n < 0x80 then [n]
  else if n < 0x800 then [0xC0 + n / 0x40, 0x80 + n % 0x40]
  else if n < 0x10000 then
    [0xE0 + n / 0x1000, 0x80 + (n / 0x40) % 0x40, 0x80 + n % 0x40]
  else
    [0xF0 + n / 0x40000, 0x80 + (n / 0x1000) % 0x40,
     0x80 + (n / 0x40) % 0x40, 0x80 + n % 0x40]

/-- Is `b` a UTF-8 continuation byte? -/
def isCont (b : Nat) : Bool := 0x80 ≤ b && b < 0xC0

/-- Strict UTF-8 decoding of a byte sequence (rejecting stray or missing
continuation bytes, overlong forms, surrogates and out-of-range values),
as `decodeURIComponent` requires. -/
def utf8Decode : List Nat → Option (List Char)
  | [] => some []
  | b :: rest =>
      if b < 0x80 then (utf8Decode rest).map (fun cs => Char.ofNat b :: cs)
      else if b < 0xC2 then none
      else if b < 0xE0 then
        match rest with
        | b2 :: rest2 =>
            if isCont b2 then
              (utf8Decode rest2).map
                (fun cs => Char.ofNat ((b - 0xC0) * 0x40 + (b2 - 0x80)) :: cs)
            else none
        | [] => none
      else if b < 0xF0 then
        match rest with
        | b2 :: b3 :: rest2 =>
            if isCont b2 && isCont b3 then
              let n := (b - 0xE0) * 0x1000 + (b2 - 0x80) * 0x40 + (b3 - 0x80)
              if n < 0x800 || (0xD800 ≤ n && n < 0xE000) then none
              else (utf8Decode rest2).map (fun cs => Char.ofNat n :: cs)
            else none
        | _ => none
      else if b < 0xF5 then
        match rest with
        | b2 :: b3 :: b4 :: rest2 =>
            if isCont b2 && isCont b3 && isCont b4 then
              let n := (b - 0xF0) * 0x40000 + (b2 - 0x80) * 0x1000 +
                       (b3 - 0x80) * 0x40 + (b4 - 0x80)
              if n < 0x10000 || 0x110000 ≤ n then none
              else (utf8Decode rest2).map (fun cs => Char.ofNat n :: cs)
            else none
        | _ => none
      else none

/-- Percent-escape decoding to bytes: `%` must be followed by two hex
digits; other characters contribute their own UTF-8 bytes. -/
def percentDecodeBytes : List Char → Option (List Nat)
  | [] => some []
  | '%' :: rest =>
      match rest with
      | a :: b :: rest2 =>
          match hexVal a, hexVal b with
          | some x, some y =>
              (percentDecodeBytes rest2).map (fun bs => (16 * x + y) :: bs)
          | _, _ => none
      | _ => none
  | c :: rest => (percentDecodeBytes rest).map (fun bs => utf8Bytes c ++ bs)

/-- JavaScript `decodeURIComponent`: `none` models the thrown `URIError`
on a malformed escape sequence or an invalid UTF-8 byte sequence. -/
def decodeURIComponent (s : String) : Option String := do
  let bs ← percentDecodeBytes s.data
  let cs ← utf8Decode bs
  pure (String.mk cs)

/-- Match of the regex `(^| )_csrf=([^;]+)` at the current position
(which must be the string start or preceded by a space): group 2 is the
non-empty run of non-semicolon characters after the literal. -/
def csrfMatchAt (cs : List Char) : Option (List Char) :=
  if ("_csrf=".data).isPrefixOf cs then
    let v := (cs.drop 6).takeWhile (fun c => !(c == ';'))
    if v.isEmpty then none else some v
  else none

/-- Left-to-right scan for the first match of `(^| )_csrf=([^;]+)`;
`ok` records whether the current position is the start of the string or
preceded by a space. -/
def csrfScan : Bool → List Char → Option (List Char)
  | _, [] => none
  | ok, c :: rest =>
      match (if ok then csrfMatchAt (c :: rest) else none) with
      | some v => some v
      | none => csrfScan (c == ' ') rest

/-- `getCsrfToken` from the source (lines 22-25): regex-match the cookie
string, URL-decode the captured value, empty string when there is no
match. An `Except.error` models the `URIError` that
`decodeURIComponent` throws on a malformed value. -/
def getCsrfToken (cookie : String) : Except String String :=
  match csrfScan true cookie.data with
  | some v =>
      match decodeURIComponent (String.mk v) with
      | some s => Except.ok s
      | none => Except.error "URIError"
  | none => Except.ok ""

/-- `document.cookie` as the browser renders a list of cookies
(`name=value` pairs joined by `"; "`). -/
def renderCookies : List (String × String) → String
  | [] => ""
  | [p] => p.1 ++ "=" ++ p.2
  | p :: rest => p.1 ++ "=" ++ p.2 ++ "; " ++ renderCookies rest

/-! ### Pass-through of the wrapped primitives -/

/-- A fetch `Response` as the wrapper sees it: its URL, the JSON parse of
its body (`none` when the body is not valid JSON), and whether its body
stream has been consumed. -/
structure Response where
  url : String
  body : Option Json
  bodyUsed : Bool
deriving DecidableEq, Repr

/-- `response.clone()`: a duplicate with a fresh, unconsumed body. -/
def Response.clone (r : Response) : Response :=
  { url := r.url, body := r.body, bodyUsed := false }

/-- `response.json()` on a clone: the parse result of the duplicated
body. -/
def Response.jsonData (r : Response) : Option Json :=
  if r.bodyUsed then none else r.body

/-- The wrapped `window.fetch` (lines 147-201): the interception runs on
`response.clone()` and the original response object is returned to the
caller. -/
def wrappedFetch (r : Response) (st : ScriptState) : Response × ScriptState :=
  (r, interceptBody "fetch" r.url (Response.jsonData (Response.clone r)) st)

/-- An XHR `load` event as both the wrapper's listener and the caller's
own listeners observe it. -/
structure XhrEvent where
  url : String
  responseBody : Option Json
deriving DecidableEq, Repr

/-- The listener the wrapped `XMLHttpRequest.prototype.send` adds
(lines 212-266): it reads `responseText` (a re-readable string) and the
event reaching the caller's listeners is untouched. -/
def wrappedXhrLoad (x : XhrEvent) (st : ScriptState) : XhrEvent × ScriptState :=
  (x, interceptBody "XHR" x.url x.responseBody st)

/-! ### Helper lemmas -/

/-- `updateTextbox` only touches the overlay DOM. -/
theorem updateTextbox_eq_setDom (st : ScriptState) :
    updateTextbox st = { st with dom := (updateTextbox st).dom } := by
  unfold updateTextbox
  split
  · rfl
  · split <;> rfl

theorem updateTextbox_remainingTaskCount (st : ScriptState) :
    (updateTextbox st).remainingTaskCount = st.remainingTaskCount := by
  rw [updateTextbox_eq_setDom]

theorem updateTextbox_emptyQueueReason (st : ScriptState) :
    (updateTextbox st).emptyQueueReason = st.emptyQueueReason := by
  rw [updateTextbox_eq_setDom]

theorem updateTextbox_href (st : ScriptState) :
    (updateTextbox st).href = st.href := by
  rw [updateTextbox_eq_setDom]

theorem updateTextbox_log (st : ScriptState) :
    (updateTextbox st).log = st.log := by
  rw [updateTextbox_eq_setDom]

/-- A non-null project id implies the page classifier accepted. -/
theorem getProjectIdFromURL_isSome_imp (path : String) (s : String)
    (h : getProjectIdFromURL path = some s) : isProjectPage path = true := by
  unfold getProjectIdFromURL at h
  by_cases hp : isProjectPage path = true
  · exact hp
  · simp [hp] at h

/-! ### C6: pass-through of the wrapped primitives -/

/-- C6: for every call through the wrapped fetch and every request through
the wrapped XMLHttpRequest, the value delivered to the original caller is
exactly the original response/event: classification runs on a duplicated
copy (`Response.clone`) and the original object passes through unchanged,
with its body still unconsumed. -/
theorem c6_passthrough (r : Response) (x : XhrEvent) (st : ScriptState) :
    (wrappedFetch r st).1 = r ∧
    (wrappedFetch r st).1.bodyUsed = r.bodyUsed ∧
    (wrappedXhrLoad x st).1 = x := ⟨rfl, rfl, rfl⟩

/-! ### C8: page classifier -/

/-- C8: the classifier accepts exactly when `split('/')` component 1 is
"projects" and component 2 (the second path segment) exists — i.e. is
present and non-empty — and differs from "history"; in that case the
project identifier is that segment verbatim. -/
theorem c8_page_classifier (path : String) :
    (isProjectPage path = true ↔
      ((pathParts path).get? 1 = some "projects" ∧
        ∃ s, (pathParts path).get? 2 = some s ∧ s ≠ "" ∧ s ≠ "history")) ∧
    (∀ s, (pathParts path).get? 2 = some s → isProjectPage path = true →
      getProjectIdFromURL path = some s) := by
  constructor
  · unfold isProjectPage
    cases h1 : (pathParts path).get? 1 <;>
      cases h2 : (pathParts path).get? 2 <;>
      simp
  · intro s h2 hp
    have hs : s ≠ "" ∧ s ≠ "history" := by
      unfold isProjectPage at hp
      rw [h2] at hp
      simp only [Bool.and_eq_true] at hp
      constructor
      · simpa using hp.2.1
      · simpa using hp.2.2
    unfold getProjectIdFromURL
    rw [hp, h2]
    simp [hs.1]

/-- Witness for C8 at a concrete project path. -/
theorem c8_page_classifier_witness :
    isProjectPage "/projects/abc" = true ∧
    getProjectIdFromURL "/projects/abc" = some "abc" :=
  ⟨(c8_page_classifier "/projects/abc").1.mpr
      ⟨by decide, "abc", by decide, by decide, by decide⟩,
   (c8_page_classifier "/projects/abc").2 "abc" (by decide) (by decide)⟩

/-! ### C9: idempotence of the overlay ensure-and-refresh -/

/-- C9: with the store and navigation state fixed, running `updateTextbox`
twice produces the same DOM as running it once — no duplicate overlay and
identical text — for any DOM with at most one overlay element (which is
every DOM the script can produce, `overlay_count_le_one`). -/
theorem c9_updateTextbox_idempotent (st : ScriptState) (h : st.dom.count ≤ 1) :
    updateTextbox (updateTextbox st) = updateTextbox st := by
  by_cases hp : isProjectPage (pathOf st.href) = true
  · by_cases hc : st.dom.count = 0
    · simp [updateTextbox, renderText, hp, hc]
    · simp [updateTextbox, renderText, hp, hc]
  · rw [Bool.not_eq_true] at hp
    have hc : st.dom.count - 1 = 0 := by omega
    simp [updateTextbox, hp, hc]

/-- Witness for C9 on a concrete project-page state. -/
theorem c9_updateTextbox_idempotent_witness :
    updateTextbox (updateTextbox (initState "https://app.outlier.ai/projects/P1")) =
      updateTextbox (initState "https://app.outlier.ai/projects/P1") :=
  c9_updateTextbox_idempotent (initState "https://app.outlier.ai/projects/P1")
    (by decide)

/-! ### Lemmas about the handlers -/

theorem except_bind_ok {ε α β : Type} (a : α) (f : α → Except ε β) :
    ((Except.ok a : Except ε α) >>= f) = f a := rfl

/-- A truthy value is a present, non-null value. -/
theorem truthy_iff_some_ne_null (o : Option Json) (h : truthy o = true) :
    ∃ j, o = some j ∧ j ≠ Json.null := by
  cases o with
  | none => simp [truthy] at h
  | some j =>
      refine ⟨j, rfl, ?_⟩
      intro hj
      rw [hj] at h
      simp [truthy] at h

/-- Member access on a non-null base never throws. -/
theorem member_ok_of_ne_null (j : Json) (h : j ≠ Json.null) (k : String) :
    Json.member j k = Except.ok (memberSafe j k) := by
  cases j <;> simp [Json.member, memberSafe] at h ⊢

/-- Off project pages the project id is `null`. -/
theorem getProjectIdFromURL_eq_none (path : String)
    (h : isProjectPage path = false) : getProjectIdFromURL path = none := by
  unfold getProjectIdFromURL
  simp [h]

theorem bulkBody_no_pid (d : Json) (st : ScriptState)
    (h : getProjectIdFromURL (pathOf st.href) = none) :
    bulkBody d st = Except.ok st := by
  unfold bulkBody
  cases d <;> simp [h]

theorem liuBody_no_pid (d : Json) (st : ScriptState)
    (h : getProjectIdFromURL (pathOf st.href) = none) :
    liuBody d st = Except.ok st := by
  unfold liuBody
  by_cases hd : truthy (some d) = true
  · rw [hd]
    obtain ⟨j, hj, hnn⟩ := truthy_iff_some_ne_null (some d) hd
    have hdj : d = j := by injection hj
    subst hdj
    simp only [if_true]
    rw [member_ok_of_ne_null d hnn, except_bind_ok]
    by_cases hl : truthy (memberSafe d "lastEmptyQueueEvent") = true
    · rw [hl]
      obtain ⟨j2, hj2, hnn2⟩ :=
        truthy_iff_some_ne_null (memberSafe d "lastEmptyQueueEvent") hl
      simp only [if_true]
      rw [hj2]
      show (Json.member j2 "emptyQueueReasons" >>= _) = _
      rw [member_ok_of_ne_null j2 hnn2, except_bind_ok]
      by_cases hr : truthy (memberSafe j2 "emptyQueueReasons") = true
      · rw [hr, if_pos rfl, h]
      · rw [Bool.not_eq_true] at hr
        rw [hr]
        simp
    · rw [Bool.not_eq_true] at hl
      rw [hl]
      simp
  · rw [Bool.not_eq_true] at hd
    rw [hd]
    simp

theorem projBody_no_pid (d : Json) (st : ScriptState)
    (h : getProjectIdFromURL (pathOf st.href) = none) :
    projBody d st = Except.ok st := by
  unfold projBody
  rw [h]

/-- Off project pages no interception branch touches the store. -/
theorem intercept_store_unchanged_off_project (tag url : String)
    (body : Option Json) (st : ScriptState)
    (h : isProjectPage (pathOf st.href) = false) :
    (interceptBody tag url body st).remainingTaskCount = st.remainingTaskCount ∧
    (interceptBody tag url body st).emptyQueueReason = st.emptyQueueReason := by
  have hpid := getProjectIdFromURL_eq_none (pathOf st.href) h
  unfold interceptBody
  split
  · cases body with
    | none => exact ⟨rfl, rfl⟩
    | some d =>
        simp only [bulkBody_no_pid d st hpid, runCatch]
        exact ⟨trivial, trivial⟩
  · split
    · cases body with
      | none => exact ⟨rfl, rfl⟩
      | some d =>
          simp only [liuBody_no_pid d st hpid, runCatch]
          exact ⟨trivial, trivial⟩
    · split
      · cases body with
        | none => exact ⟨rfl, rfl⟩
        | some d =>
            simp only [projBody_no_pid d st hpid, runCatch]
            exact ⟨trivial, trivial⟩
      · exact ⟨rfl, rfl⟩

/-- The classifier accepts exactly when the extractor yields a non-null,
non-empty id. -/
theorem getProjectId_isSome_iff (path : String) :
    (∃ s, getProjectIdFromURL path = some s ∧ s ≠ "") ↔
      isProjectPage path = true := by
  constructor
  · rintro ⟨s, hs, -⟩
    exact getProjectIdFromURL_isSome_imp path s hs
  · intro hp
    have hp2 := hp
    unfold isProjectPage at hp2
    cases h2 : (pathParts path).get? 2 with
    | none =>
        rw [h2] at hp2
        simp at hp2
    | some s =>
        rw [h2] at hp2
        simp only [Bool.and_eq_true] at hp2
        have hs1 : s ≠ "" := by simpa using hp2.2.1
        refine ⟨s, ?_, hs1⟩
        unfold getProjectIdFromURL
        rw [hp, h2]
        simp [hs1]

/-! ### C10: identifier gating of the observation handlers -/

/-- Shared navigation URLs of the concrete scenarios. -/
def dashboardUrl : String := "https://app.outlier.ai/dashboard"

def projectP1Url : String := "https://app.outlier.ai/projects/P1"

/-- C10 (amended): `getProjectIdFromURL` yields a non-null, non-empty id
iff `isProjectPage` holds, the id is the second path segment verbatim,
and the observation handlers (fetch and XHR interception, which re-read
the id at response time) never update the store while the current page is
not a project page. (The fallback fetch is only issued from project
pages, but its completion handler matches against the id captured at
issue time and can still update the store after a navigation away — see
the counterexample.) -/
theorem c10_identifier_gating (path tag url : String) (body : Option Json)
    (st : ScriptState) :
    ((∃ s, getProjectIdFromURL path = some s ∧ s ≠ "") ↔
        isProjectPage path = true) ∧
    (∀ s, getProjectIdFromURL path = some s →
        (pathParts path).get? 2 = some s) ∧
    (isProjectPage (pathOf st.href) = false →
      (interceptBody tag url body st).remainingTaskCount = st.remainingTaskCount ∧
      (interceptBody tag url body st).emptyQueueReason = st.emptyQueueReason) := by
  refine ⟨getProjectId_isSome_iff path, ?_,
    fun h => intercept_store_unchanged_off_project tag url body st h⟩
  intro s hs
  have hp := getProjectIdFromURL_isSome_imp path s hs
  unfold getProjectIdFromURL at hs
  rw [hp] at hs
  cases h2 : (pathParts path).get? 2 with
  | none =>
      rw [h2] at hs
      simp at hs
  | some t =>
      rw [h2] at hs
      by_cases ht : t = ""
      · simp [ht] at hs
      · simp [ht] at hs
        rw [hs]

/-- Witness for C10 on a concrete path and a concrete off-project state. -/
theorem c10_identifier_gating_witness :
    (pathParts "/projects/xyz").get? 2 = some "xyz" ∧
    (interceptBody "fetch" bulkRemainingTasksUrl (some (Json.arr []))
        (initState dashboardUrl)).remainingTaskCount =
      (initState dashboardUrl).remainingTaskCount :=
  ⟨(c10_identifier_gating "/projects/xyz" "fetch" bulkRemainingTasksUrl
      (some (Json.arr [])) (initState dashboardUrl)).2.1 "xyz" (by decide),
   ((c10_identifier_gating "/projects/xyz" "fetch" bulkRemainingTasksUrl
      (some (Json.arr [])) (initState dashboardUrl)).2.2 (by decide)).1⟩

/-- The reachable scenario refuting the universal reading of C10: a
fallback request issued on project page P1 resolves after navigating
away, and its handler updates the store on a non-project page. -/
def c10Trace : List Ev :=
  [Ev.navigate projectP1Url,
   Ev.tick,
   Ev.navigate dashboardUrl,
   Ev.pollResolve "P1"
     (some (Json.arr [Json.obj [("projectId", Json.str "P1"),
                                ("count", Json.num 5)]]))]

/-- C10 counterexample: after the trace above the current page is not a
project page, yet the fallback fetch's completion handler has just set
Remaining Task Count to 5 — so "no State Store update happens while the
current page is not a project page" fails for the fallback fetch. -/
theorem c10_counterexample :
    (run (initState dashboardUrl) c10Trace).remainingTaskCount =
        some (Json.num 5) ∧
    isProjectPage (pathOf (run (initState dashboardUrl) c10Trace).href) =
        false := by decide

/-! ### C5: error containment of the interception layer -/

/-- `Array.isArray`. -/
def Json.isArr : Json → Bool
  | Json.arr _ => true
  | _ => false

/-- Non-throwing nested member access for stating shape conditions. -/
def optMemberSafe (o : Option Json) (k : String) : Option Json :=
  o.bind (fun j => memberSafe j k)

/-- The truthiness chain `data && data.lastEmptyQueueEvent &&
data.lastEmptyQueueEvent.emptyQueueReasons` of the logged_in_user branch. -/
def liuShapeOk (d : Json) : Bool :=
  truthy (some d) && truthy (memberSafe d "lastEmptyQueueEvent") &&
    truthy (optMemberSafe (memberSafe d "lastEmptyQueueEvent") "emptyQueueReasons")

/-- The `Array.isArray(data) && data.length > 1` precondition of the
project-detail branch. -/
def projShapePre (d : Json) : Bool :=
  match d with
  | Json.arr items => decide (items.length > 1)
  | _ => false

/-- Does the URL match one of the three recognized endpoint patterns? -/
def recognizedUrl (url : String) : Bool :=
  strIncludes url bulkRemainingTasksPath || matchesLoggedInUser url ||
    matchesProjectDetail url

theorem bulkBody_not_arr (d : Json) (st : ScriptState)
    (h : Json.isArr d = false) : bulkBody d st = Except.ok st := by
  unfold bulkBody
  cases d <;> simp [Json.isArr] at h ⊢

theorem liuBody_shape_false (d : Json) (st : ScriptState)
    (h : liuShapeOk d = false) : liuBody d st = Except.ok st := by
  unfold liuBody
  by_cases hd : truthy (some d) = true
  · rw [hd]
    obtain ⟨j, hj, hnn⟩ := truthy_iff_some_ne_null (some d) hd
    have hdj : d = j := by injection hj
    subst hdj
    simp only [if_true]
    rw [member_ok_of_ne_null d hnn, except_bind_ok]
    by_cases hl : truthy (memberSafe d "lastEmptyQueueEvent") = true
    · rw [hl]
      obtain ⟨j2, hj2, hnn2⟩ :=
        truthy_iff_some_ne_null (memberSafe d "lastEmptyQueueEvent") hl
      simp only [if_true]
      rw [hj2]
      show (Json.member j2 "emptyQueueReasons" >>= _) = _
      rw [member_ok_of_ne_null j2 hnn2, except_bind_ok]
      by_cases hr : truthy (memberSafe j2 "emptyQueueReasons") = true
      · exfalso
        have : liuShapeOk d = true := by
          unfold liuShapeOk
          rw [hd, hl]
          simp only [optMemberSafe, hj2, Option.some_bind]
          rw [hr]
          rfl
        rw [this] at h
        exact Bool.noConfusion h
      · rw [Bool.not_eq_true] at hr
        rw [hr]
        simp
    · rw [Bool.not_eq_true] at hl
      rw [hl]
      simp
  · rw [Bool.not_eq_true] at hd
    rw [hd]
    simp

theorem projBody_pre_false (d : Json) (st : ScriptState)
    (h : projShapePre d = false) : projBody d st = Except.ok st := by
  unfold projBody
  cases hpid : getProjectIdFromURL (pathOf st.href) with
  | none => rfl
  | some pid =>
      cases d with
      | arr items =>
          have hlen : ¬(items.length > 1) := by
            simpa [projShapePre] using h
          simp [hlen]
      | null => rfl
      | bool b => rfl
      | num n => rfl
      | str s => rfl
      | obj kvs => rfl

/-- C5 (amended): a body that fails to parse as JSON leaves the store
unchanged and, on every recognized endpoint, appends exactly one log
entry; a parsed body whose shape fails the branch's check (non-array for
the bulk endpoint, a falsy truthiness chain for logged_in_user, a
non-array or too-short body for project-detail) leaves the whole state
unchanged *silently*, without any log entry; in all cases the handler is
a total function, so no exception escapes to the caller. -/
theorem c5_error_containment (tag url : String) (st : ScriptState) (d : Json) :
    ((interceptBody tag url none st).remainingTaskCount = st.remainingTaskCount ∧
     (interceptBody tag url none st).emptyQueueReason = st.emptyQueueReason) ∧
    (recognizedUrl url = true →
      (interceptBody tag url none st).log.length = st.log.length + 1) ∧
    (strIncludes url bulkRemainingTasksPath = true → Json.isArr d = false →
      interceptBody tag url (some d) st = st) ∧
    (strIncludes url bulkRemainingTasksPath = false →
      matchesLoggedInUser url = true → liuShapeOk d = false →
      interceptBody tag url (some d) st = st) ∧
    (strIncludes url bulkRemainingTasksPath = false →
      matchesLoggedInUser url = false → matchesProjectDetail url = true →
      projShapePre d = false → interceptBody tag url (some d) st = st) := by
  refine ⟨?_, ?_, ?_, ?_, ?_⟩
  · unfold interceptBody
    split
    · exact ⟨rfl, rfl⟩
    · split
      · exact ⟨rfl, rfl⟩
      · split
        · exact ⟨rfl, rfl⟩
        · exact ⟨rfl, rfl⟩
  · intro hr
    unfold interceptBody
    split
    · simp
    · split
      · simp
      · split
        · simp
        · unfold recognizedUrl at hr
          simp_all
  · intro h1 hd
    unfold interceptBody
    rw [h1]
    simp only [if_true]
    simp only [bulkBody_not_arr d st hd, runCatch]
  · intro h1 h2 hd
    unfold interceptBody
    rw [h1, h2]
    simp only [Bool.false_eq_true, if_false, if_true]
    simp only [liuBody_shape_false d st hd, runCatch]
  · intro h1 h2 h3 hd
    unfold interceptBody
    rw [h1, h2, h3]
    simp only [Bool.false_eq_true, if_false, if_true]
    simp only [projBody_pre_false d st hd, runCatch]

/-- Witness for C5: a parse failure on the bulk endpoint logs one entry;
a shape-mismatched (non-object-shaped) logged_in_user body leaves the
state untouched. -/
theorem c5_error_containment_witness :
    ((interceptBody "fetch" bulkRemainingTasksUrl none
        (initState projectP1Url)).log.length =
      (initState projectP1Url).log.length + 1) ∧
    interceptBody "XHR" "https://app.outlier.ai/internal/logged_in_user"
        (some (Json.num 7)) (initState projectP1Url) =
      initState projectP1Url :=
  ⟨(c5_error_containment "fetch" bulkRemainingTasksUrl
      (initState projectP1Url) (Json.obj [])).2.1 (by decide),
   (c5_error_containment "XHR" "https://app.outlier.ai/internal/logged_in_user"
      (initState projectP1Url) (Json.num 7)).2.2.2.1
      (by decide) (by decide) (by decide)⟩

/-- C5 counterexample: a valid-JSON body of the wrong shape (an object
where the bulk endpoint expects an array) leaves the state — including
the log — completely unchanged, so no error is logged, contradicting the
claim that shape mismatches produce a logged error. -/
theorem c5_counterexample :
    Json.isArr (Json.obj []) = false ∧
    interceptBody "fetch" bulkRemainingTasksUrl (some (Json.obj []))
        (initState projectP1Url) =
      initState projectP1Url := by decide

/-! ### C3: reset of the store on project change -/

/-- The fallback-issuing phase preserves the exact overlay count. -/
theorem tick_gate_dom_count (s1 : ScriptState) (n : Nat)
    (h1 : s1.dom.count = n) :
    (if (isProjectPage (pathOf s1.href) && s1.remainingTaskCount == none) = true
     then { s1 with
              pending := (getProjectIdFromURL (pathOf s1.href)).getD "" ::
                s1.pending }
     else s1).dom.count = n := by
  split
  · exact h1
  · exact h1

/-- The fallback-issuing phase never touches the two store fields. -/
theorem tick_gate_store (s1 : ScriptState) (r e : Option Json)
    (h : s1.remainingTaskCount = r ∧ s1.emptyQueueReason = e) :
    ((if (isProjectPage (pathOf s1.href) && s1.remainingTaskCount == none) = true
      then { s1 with
               pending := (getProjectIdFromURL (pathOf s1.href)).getD "" ::
                 s1.pending }
      else s1)).remainingTaskCount = r ∧
    ((if (isProjectPage (pathOf s1.href) && s1.remainingTaskCount == none) = true
      then { s1 with
               pending := (getProjectIdFromURL (pathOf s1.href)).getD "" ::
                 s1.pending }
      else s1)).emptyQueueReason = e := by
  split
  · exact h
  · exact h

/-- C3 (amended): whenever the navigation location changed since the
last tick and the new location is a project page — in particular on
every navigation from one project page to a different project page, but
also when entering a project page from a non-project page or when only
the query string changed — the next tick resets both Remaining Task
Count and Empty Queue Reason to the unknown state (`null`),
synchronously, before any response event can be processed. In every
other situation the tick leaves the stored values untouched; in
particular, navigating from a project page to a non-project page
removes the overlay (for any DOM with at most one overlay element,
which is every reachable DOM by `overlay_count_le_one`) but does *not*
clear the stored values — they are cleared only when a project page is
next entered. -/
theorem c3_reset_on_project_change (st : ScriptState) (h : st.dom.count ≤ 1) :
    (st.href ≠ st.lastUrl → isProjectPage (pathOf st.href) = true →
      (tick st).remainingTaskCount = none ∧
      (tick st).emptyQueueReason = none) ∧
    (¬(st.href ≠ st.lastUrl ∧ isProjectPage (pathOf st.href) = true) →
      (tick st).remainingTaskCount = st.remainingTaskCount ∧
      (tick st).emptyQueueReason = st.emptyQueueReason) ∧
    (st.href ≠ st.lastUrl → isProjectPage (pathOf st.href) = false →
      (tick st).dom.count = 0) := by
  refine ⟨?_, ?_, ?_⟩
  · intro hdiff hproj
    unfold tick
    have hb : (st.href == st.lastUrl) = false := beq_eq_false_iff_ne.mpr hdiff
    rw [hb]
    simp only [Bool.not_false, if_true, hproj]
    constructor
    · split
      · simp [updateTextbox_remainingTaskCount]
      · simp [updateTextbox_remainingTaskCount]
    · split
      · simp [updateTextbox_emptyQueueReason]
      · simp [updateTextbox_emptyQueueReason]
  · intro hnr
    unfold tick
    apply tick_gate_store
    by_cases hb : st.href = st.lastUrl
    · have hbeq : (st.href == st.lastUrl) = true := beq_iff_eq.mpr hb
      rw [hbeq]
      simp only [Bool.not_true, Bool.false_eq_true, if_false]
      split
      · exact ⟨updateTextbox_remainingTaskCount st,
               updateTextbox_emptyQueueReason st⟩
      · exact ⟨rfl, rfl⟩
    · have hproj : isProjectPage (pathOf st.href) = false := by
        cases hpt : isProjectPage (pathOf st.href) with
        | false => rfl
        | true => exact absurd ⟨hb, hpt⟩ hnr
      have hbeq : (st.href == st.lastUrl) = false := beq_eq_false_iff_ne.mpr hb
      rw [hbeq]
      simp only [Bool.not_false, if_true, hproj]
      simp only [Bool.false_eq_true, if_false]
      constructor
      · trivial
      · trivial
  · intro hdiff hproj
    unfold tick
    apply tick_gate_dom_count
    rw [hproj]
    split
    · simp only [Bool.true_eq_false, if_neg, ite_false]
      show st.dom.count - 1 = 0
      omega
    · next hne =>
        exfalso
        have hb2 : (st.href == st.lastUrl) = true := by simpa using hne
        exact hdiff (beq_iff_eq.mp hb2)

/-- Witness for C3: entering project P1 from a non-project page resets
the stale store; leaving project P1 for a non-project page keeps the
stale value 5 in the store while the overlay is removed. -/
theorem c3_reset_on_project_change_witness :
    ((tick { remainingTaskCount := some (Json.num 5),
             emptyQueueReason := some (Json.str "A"),
             lastUrl := dashboardUrl, href := projectP1Url,
             dom := { count := 0, text := "" }, log := [],
             pending := [] }).remainingTaskCount = none) ∧
    ((tick { remainingTaskCount := some (Json.num 5),
             emptyQueueReason := some (Json.str "A"),
             lastUrl := projectP1Url, href := dashboardUrl,
             dom := { count := 1, text := "t" }, log := [],
             pending := [] }).remainingTaskCount = some (Json.num 5)) ∧
    ((tick { remainingTaskCount := some (Json.num 5),
             emptyQueueReason := some (Json.str "A"),
             lastUrl := projectP1Url, href := dashboardUrl,
             dom := { count := 1, text := "t" }, log := [],
             pending := [] }).dom.count = 0) :=
  ⟨((c3_reset_on_project_change
      { remainingTaskCount := some (Json.num 5),
        emptyQueueReason := some (Json.str "A"),
        lastUrl := dashboardUrl, href := projectP1Url,
        dom := { count := 0, text := "" }, log := [], pending := [] }
      (by decide)).1 (by decide) (by decide)).1,
   ((c3_reset_on_project_change
      { remainingTaskCount := some (Json.num 5),
        emptyQueueReason := some (Json.str "A"),
        lastUrl := projectP1Url, href := dashboardUrl,
        dom := { count := 1, text := "t" }, log := [], pending := [] }
      (by decide)).2.1 (by decide)).1,
   ((c3_reset_on_project_change
      { remainingTaskCount := some (Json.num 5),
        emptyQueueReason := some (Json.str "A"),
        lastUrl := projectP1Url, href := dashboardUrl,
        dom := { count := 1, text := "t" }, log := [], pending := [] }
      (by decide)).2.2 (by decide) (by decide))⟩

/-- Scenario refuting the universal reading of C3: Remaining Task Count
is set on project P1, then the page navigates to a non-project page and
a tick runs. -/
def c3Trace : List Ev :=
  [Ev.fetchResponse bulkRemainingTasksUrl
     (some (Json.arr [Json.obj [("projectId", Json.str "P1"),
                                ("count", Json.num 5)]])),
   Ev.navigate dashboardUrl,
   Ev.tick]

/-- C3 counterexample: after navigating from project P1 to a non-project
page (the project identifier changes from "P1" to null) the tick has
processed the navigation change (`lastUrl` caught up), yet the stored
Remaining Task Count still holds the stale value 5 — it was not reset to
the unknown state. -/
theorem c3_counterexample :
    (run (initState projectP1Url) c3Trace).remainingTaskCount =
        some (Json.num 5) ∧
    getProjectIdFromURL (pathOf projectP1Url) = some "P1" ∧
    getProjectIdFromURL
        (pathOf (run (initState projectP1Url) c3Trace).href) = none ∧
    (run (initState projectP1Url) c3Trace).lastUrl =
      (run (initState projectP1Url) c3Trace).href := by decide

/-! ### C4: overlay existence after reconciliation -/

theorem except_bind_err {ε α β : Type} (e : ε) (f : α → Except ε β) :
    ((Except.error e : Except ε α) >>= f) = Except.error e := rfl

/-- `updateTextbox` never leaves more than one overlay element when at
most one existed. -/
theorem updateTextbox_count_le (st : ScriptState) (h : st.dom.count ≤ 1) :
    (updateTextbox st).dom.count ≤ 1 := by
  unfold updateTextbox
  split
  · simp
    omega
  · split
    · simp
    · simp
      omega

/-- On a project page `updateTextbox` leaves exactly one overlay element
when at most one existed. -/
theorem updateTextbox_count_proj (st : ScriptState)
    (hp : isProjectPage (pathOf st.href) = true) (h : st.dom.count ≤ 1) :
    (updateTextbox st).dom.count = 1 := by
  unfold updateTextbox
  rw [hp]
  simp only [Bool.not_true, Bool.false_eq_true, if_false]
  split
  · rfl
  · simp only []
    next hc =>
      have : st.dom.count ≠ 0 := by simpa using hc
      omega

theorem bulkApply_count (pid : String) (items : List Json) (st : ScriptState)
    (h : st.dom.count ≤ 1) (st2 : ScriptState)
    (he : bulkApply pid items st = Except.ok st2) : st2.dom.count ≤ 1 := by
  unfold bulkApply at he
  cases hf : findMatch pid items with
  | error e =>
      rw [hf, except_bind_err] at he
      exact absurd he (by simp)
  | ok pd =>
      rw [hf, except_bind_ok] at he
      cases pd with
      | none =>
          simp only [] at he
          injection he with he2
          rw [← he2]
          exact h
      | some it =>
          simp only [] at he
          cases hm : Json.member it "count" with
          | error e =>
              rw [hm, except_bind_err] at he
              exact absurd he (by simp)
          | ok c =>
              rw [hm, except_bind_ok] at he
              cases c with
              | none =>
                  simp only [] at he
                  injection he with he2
                  rw [← he2]
                  exact h
              | some cv =>
                  simp only [] at he
                  injection he with he2
                  rw [← he2]
                  exact updateTextbox_count_le _ h

theorem applyReasons_count (rs : Option Json) (pid : String) (st : ScriptState)
    (h : st.dom.count ≤ 1) (st2 : ScriptState)
    (he : applyReasons rs pid st = Except.ok st2) : st2.dom.count ≤ 1 := by
  unfold applyReasons at he
  cases hr : optMember rs pid with
  | error e =>
      rw [hr, except_bind_err] at he
      exact absurd he (by simp)
  | ok rv =>
      rw [hr, except_bind_ok] at he
      by_cases ht : truthy rv = true
      · rw [ht] at he
        simp only [if_true] at he
        cases h1 : optMember rv "-1" with
        | error e =>
            rw [h1, except_bind_err] at he
            exact absurd he (by simp)
        | ok v1 =>
            rw [h1, except_bind_ok] at he
            cases h4 : optMember rv "4" with
            | error e =>
                rw [h4, except_bind_err] at he
                exact absurd he (by simp)
            | ok v4 =>
                rw [h4, except_bind_ok] at he
                injection he with he2
                rw [← he2]
                exact updateTextbox_count_le _ h
      · rw [Bool.not_eq_true] at ht
        rw [ht] at he
        simp only [Bool.false_eq_true, if_false] at he
        injection he with he2
        rw [← he2]
        exact updateTextbox_count_le _ h

theorem liuBody_count (d : Json) (st : ScriptState)
    (h : st.dom.count ≤ 1) (st2 : ScriptState)
    (he : liuBody d st = Except.ok st2) : st2.dom.count ≤ 1 := by
  unfold liuBody at he
  by_cases hd : truthy (some d) = true
  · rw [hd] at he
    simp only [if_true] at he
    cases hm : Json.member d "lastEmptyQueueEvent" with
    | error e =>
        rw [hm, except_bind_err] at he
        exact absurd he (by simp)
    | ok lq =>
        rw [hm, except_bind_ok] at he
        by_cases hl : truthy lq = true
        · rw [hl] at he
          simp only [if_true] at he
          cases hm2 : optMember lq "emptyQueueReasons" with
          | error e =>
              rw [hm2, except_bind_err] at he
              exact absurd he (by simp)
          | ok rs =>
              rw [hm2, except_bind_ok] at he
              by_cases hr : truthy rs = true
              · rw [hr] at he
                simp only [if_true] at he
                cases hpid : getProjectIdFromURL (pathOf st.href) with
                | none =>
                    rw [hpid] at he
                    injection he with he2
                    rw [← he2]
                    exact h
                | some pid =>
                    rw [hpid] at he
                    exact applyReasons_count rs pid st h st2 he
              · rw [Bool.not_eq_true] at hr
                rw [hr] at he
                simp only [Bool.false_eq_true, if_false] at he
                injection he with he2
                rw [← he2]
                exact h
        · rw [Bool.not_eq_true] at hl
          rw [hl] at he
          simp only [Bool.false_eq_true, if_false] at he
          injection he with he2
          rw [← he2]
          exact h
  · rw [Bool.not_eq_true] at hd
    rw [hd] at he
    simp only [Bool.false_eq_true, if_false] at he
    injection he with he2
    rw [← he2]
    exact h

theorem projBody_count (d : Json) (st : ScriptState)
    (h : st.dom.count ≤ 1) (st2 : ScriptState)
    (he : projBody d st = Except.ok st2) : st2.dom.count ≤ 1 := by
  unfold projBody at he
  cases hpid : getProjectIdFromURL (pathOf st.href) with
  | none =>
      rw [hpid] at he
      injection he with he2
      rw [← he2]
      exact h
  | some pid =>
      rw [hpid] at he
      cases d with
      | arr items =>
          simp only [] at he
          by_cases hlen : items.length > 1
          · rw [if_pos hlen] at he
            cases hm : Json.member ((items.get? 1).getD Json.null) "lastEmptyQueueEvent" with
            | error e =>
                rw [hm, except_bind_err] at he
                exact absurd he (by simp)
            | ok lq =>
                rw [hm, except_bind_ok] at he
                by_cases hl : truthy lq = true
                · rw [hl] at he
                  simp only [if_true] at he
                  cases hm2 : optMember lq "emptyQueueReasons" with
                  | error e =>
                      rw [hm2, except_bind_err] at he
                      exact absurd he (by simp)
                  | ok rs =>
                      rw [hm2, except_bind_ok] at he
                      by_cases hr : truthy rs = true
                      · rw [hr] at he
                        simp only [if_true] at he
                        exact applyReasons_count rs pid st h st2 he
                      · rw [Bool.not_eq_true] at hr
                        rw [hr] at he
                        simp only [Bool.false_eq_true, if_false] at he
                        injection he with he2
                        rw [← he2]
                        exact h
                · rw [Bool.not_eq_true] at hl
                  rw [hl] at he
                  simp only [Bool.false_eq_true, if_false] at he
                  injection he with he2
                  rw [← he2]
                  exact h
          · rw [if_neg hlen] at he
            injection he with he2
            rw [← he2]
            exact h
      | null => injection he with he2; rw [← he2]; exact h
      | bool b => injection he with he2; rw [← he2]; exact h
      | num n => injection he with he2; rw [← he2]; exact h
      | str s => injection he with he2; rw [← he2]; exact h
      | obj kvs => injection he with he2; rw [← he2]; exact h

theorem runCatch_count (msg : String) (act : Except String ScriptState)
    (st : ScriptState) (h : st.dom.count ≤ 1)
    (hall : ∀ st2, act = Except.ok st2 → st2.dom.count ≤ 1) :
    (runCatch msg act st).dom.count ≤ 1 := by
  unfold runCatch
  cases act with
  | ok st2 => exact hall st2 rfl
  | error e => exact h

theorem interceptBody_count (tag url : String) (body : Option Json)
    (st : ScriptState) (h : st.dom.count ≤ 1) :
    (interceptBody tag url body st).dom.count ≤ 1 := by
  unfold interceptBody
  split
  · cases body with
    | none => exact h
    | some d =>
        apply runCatch_count _ _ _ h
        intro st2 he
        unfold bulkBody at he
        cases d with
        | arr items =>
            cases hpid : getProjectIdFromURL (pathOf st.href) with
            | none =>
                rw [hpid] at he
                injection he with he2
                rw [← he2]
                exact h
            | some pid =>
                rw [hpid] at he
                exact bulkApply_count pid items st h st2 he
        | null => injection he with he2; rw [← he2]; exact h
        | bool b => injection he with he2; rw [← he2]; exact h
        | num n => injection he with he2; rw [← he2]; exact h
        | str s => injection he with he2; rw [← he2]; exact h
        | obj kvs => injection he with he2; rw [← he2]; exact h
  · split
    · cases body with
      | none => exact h
      | some d =>
          apply runCatch_count _ _ _ h
          intro st2 he
          exact liuBody_count d st h st2 he
    · split
      · cases body with
        | none => exact h
        | some d =>
            apply runCatch_count _ _ _ h
            intro st2 he
            exact projBody_count d st h st2 he
      · exact h

theorem pollThen_count (pid : String) (body : Option Json)
    (st : ScriptState) (h : st.dom.count ≤ 1) :
    (pollThen pid body st).dom.count ≤ 1 := by
  unfold pollThen
  cases body with
  | none => exact h
  | some d =>
      cases d with
      | arr items =>
          apply runCatch_count _ _ _ h
          intro st2 he
          exact bulkApply_count pid items st h st2 he
      | null => exact h
      | bool b => exact h
      | num n => exact h
      | str s => exact h
      | obj kvs => exact h

/-- The fallback-issuing phase at the end of a tick never touches the
DOM. -/
theorem tick_gate_count (s1 : ScriptState) (h1 : s1.dom.count ≤ 1) :
    (if (isProjectPage (pathOf s1.href) && s1.remainingTaskCount == none) = true
     then { s1 with
              pending := (getProjectIdFromURL (pathOf s1.href)).getD "" ::
                s1.pending }
     else s1).dom.count ≤ 1 := by
  split
  · exact h1
  · exact h1

theorem tick_count (st : ScriptState) (h : st.dom.count ≤ 1) :
    (tick st).dom.count ≤ 1 := by
  unfold tick
  apply tick_gate_count
  split
  · split
    · exact updateTextbox_count_le _ h
    · show st.dom.count - 1 ≤ 1
      omega
  · split
    · exact updateTextbox_count_le _ h
    · exact h

theorem step_count (st : ScriptState) (e : Ev) (h : st.dom.count ≤ 1) :
    (step st e).dom.count ≤ 1 := by
  cases e with
  | navigate u => exact h
  | tick => exact tick_count st h
  | fetchResponse url b => exact interceptBody_count "fetch" url b st h
  | xhrLoad url b => exact interceptBody_count "XHR" url b st h
  | pollResolve pid b =>
      show (if st.pending.contains pid = true then
              pollThen pid b (interceptBody "fetch" bulkRemainingTasksUrl b
                { st with pending := removeOnePending pid st.pending })
            else st).dom.count ≤ 1
      split
      · exact pollThen_count pid b _
          (interceptBody_count "fetch" bulkRemainingTasksUrl b _ h)
      · exact h

/-- Every state the script can reach has at most one overlay element. -/
theorem overlay_count_le_one (st : ScriptState) (es : List Ev)
    (h : st.dom.count ≤ 1) : (run st es).dom.count ≤ 1 := by
  induction es generalizing st with
  | nil => exact h
  | cons e es ih => exact ih (step st e) (step_count st e h)

/-- C4 (amended): after a tick, a project path always shows exactly one
overlay element (no duplicates, since every reachable DOM has at most
one, `overlay_count_le_one`); a non-project path shows none **provided**
the navigation location changed since the last tick or no overlay
existed when the tick started. (If the location reverts between two
ticks while a response handler recreated the overlay, a stale overlay
survives the tick on a non-project page — see the counterexample.) -/
theorem c4_overlay_after_tick (st : ScriptState) (h : st.dom.count ≤ 1) :
    (isProjectPage (pathOf st.href) = true → (tick st).dom.count = 1) ∧
    (isProjectPage (pathOf st.href) = false →
      (st.href ≠ st.lastUrl ∨ st.dom.count = 0) →
      (tick st).dom.count = 0) := by
  constructor
  · intro hp
    unfold tick
    apply tick_gate_dom_count
    rw [hp]
    split
    · simp only [if_pos]
      exact updateTextbox_count_proj _ hp h
    · split
      · exact updateTextbox_count_proj _ hp h
      · next hcond =>
          have hc0 : st.dom.count ≠ 0 := by
            intro h0
            exact hcond (by simp [h0])
          show st.dom.count = 1
          omega
  · intro hp hz
    unfold tick
    apply tick_gate_dom_count
    rw [hp]
    split
    · simp only [Bool.true_eq_false, if_neg, ite_false]
      show st.dom.count - 1 = 0
      omega
    · next hne =>
        simp only [Bool.false_and, Bool.false_eq_true, if_false]
        have hsame : st.href = st.lastUrl := by
          have hb : (st.href == st.lastUrl) = true := by simpa using hne
          exact beq_iff_eq.mp hb
        cases hz with
        | inl hdiff => exact absurd hsame hdiff
        | inr h0 => exact h0

/-- Witness for C4: a tick on a fresh project page creates exactly one
overlay; a tick after navigating to a non-project page removes it. -/
theorem c4_overlay_after_tick_witness :
    (tick (initState projectP1Url)).dom.count = 1 ∧
    (tick { remainingTaskCount := none, emptyQueueReason := none,
            lastUrl := projectP1Url, href := dashboardUrl,
            dom := { count := 1, text := "t" }, log := [],
            pending := [] }).dom.count = 0 :=
  ⟨(c4_overlay_after_tick (initState projectP1Url) (by decide)).1 (by decide),
   (c4_overlay_after_tick
      { remainingTaskCount := none, emptyQueueReason := none,
        lastUrl := projectP1Url, href := dashboardUrl,
        dom := { count := 1, text := "t" }, log := [], pending := [] }
      (by decide)).2 (by decide) (Or.inl (by decide))⟩

/-- Scenario refuting the universal reading of C4: starting on a
non-project page, the page navigates to project P1, a logged_in_user
response handler recreates the overlay there, the page navigates back to
the original non-project URL, and then the tick runs: the location
compares equal to `lastUrl`, so the tick does nothing. -/
def c4Trace : List Ev :=
  [Ev.navigate projectP1Url,
   Ev.fetchResponse "https://app.outlier.ai/internal/logged_in_user"
     (some (Json.obj [("lastEmptyQueueEvent",
                       Json.obj [("emptyQueueReasons", Json.obj [])])])),
   Ev.navigate dashboardUrl,
   Ev.tick]

/-- C4 counterexample: after a reconciliation tick the current path is
not a project path, yet one overlay element still exists. -/
theorem c4_counterexample :
    (run (initState dashboardUrl) c4Trace).dom.count = 1 ∧
    isProjectPage (pathOf (run (initState dashboardUrl) c4Trace).href) =
      false := by decide

/-! ### C2: bulk remaining-tasks record matching -/

/-- A `{projectId, count}` record as JSON: the `count` field may be
absent (`none`) or hold any JSON value. -/
def encodeBulkRecord (r : String × Option Json) : Json :=
  Json.obj (("projectId", Json.str r.1) ::
    (match r.2 with
     | some c => [("count", c)]
     | none => []))

theorem findMatch_encode (pid : String) (recs : List (String × Option Json)) :
    findMatch pid (recs.map encodeBulkRecord) =
      Except.ok ((recs.find? (fun r => r.1 == pid)).map encodeBulkRecord) := by
  induction recs with
  | nil => rfl
  | cons r rest ih =>
      show (Json.member (encodeBulkRecord r) "projectId" >>= _) = _
      have hm : Json.member (encodeBulkRecord r) "projectId" =
          Except.ok (some (Json.str r.1)) := by
        cases r with
        | mk p c => cases c <;> rfl
      rw [hm, except_bind_ok]
      by_cases hr : r.1 = pid
      · have hb : (some (Json.str r.1) == some (Json.str pid)) = true := by
          simp [hr]
        rw [hb]
        simp only [if_true]
        have hf : (r :: rest).find? (fun x => x.1 == pid) = some r :=
          List.find?_cons_of_pos rest (by simpa using hr)
        rw [hf]
        rfl
      · have hb : (some (Json.str r.1) == some (Json.str pid)) = false := by
          simp [hr]
        rw [hb]
        simp only [Bool.false_eq_true, if_false]
        have hf : (r :: rest).find? (fun x => x.1 == pid) =
            rest.find? (fun x => x.1 == pid) :=
          List.find?_cons_of_neg rest (by simpa using hr)
        rw [hf]
        exact ih

theorem member_count_encode (r : String × Option Json) :
    Json.member (encodeBulkRecord r) "count" = Except.ok r.2 := by
  cases r with
  | mk p c => cases c <;> rfl

/-- The bulk interception on an encoded record list reduces to the
first-match rule. -/
theorem intercept_bulk_encode (tag url : String)
    (recs : List (String × Option Json)) (pid : String) (st : ScriptState)
    (hurl : strIncludes url bulkRemainingTasksPath = true)
    (hpid : getProjectIdFromURL (pathOf st.href) = some pid) :
    interceptBody tag url (some (Json.arr (recs.map encodeBulkRecord))) st =
      (match recs.find? (fun r => r.1 == pid) with
       | some (_, some c) => updateTextbox { st with remainingTaskCount := some c }
       | some (_, none) => st
       | none => st) := by
  unfold interceptBody
  rw [hurl]
  simp only [if_true]
  have happly : bulkApply pid (recs.map encodeBulkRecord) st =
      Except.ok (match recs.find? (fun r => r.1 == pid) with
       | some (_, some c) => updateTextbox { st with remainingTaskCount := some c }
       | some (_, none) => st
       | none => st) := by
    unfold bulkApply
    rw [findMatch_encode, except_bind_ok]
    cases hf : recs.find? (fun r => r.1 == pid) with
    | none => rfl
    | some r =>
        show (Json.member (encodeBulkRecord r) "count" >>= _) = _
        rw [member_count_encode, except_bind_ok]
        cases r with
        | mk p c => cases c <;> rfl
  have hbody : bulkBody (Json.arr (recs.map encodeBulkRecord)) st =
      bulkApply pid (recs.map encodeBulkRecord) st := by
    unfold bulkBody
    rw [hpid]
  rw [hbody, happly]
  rfl

theorem find?_filter_same {α : Type} (l : List α) (p : α → Bool) :
    (l.filter p).find? p = l.find? p := by
  induction l with
  | nil => rfl
  | cons a l ih =>
      by_cases h : p a = true
      · rw [List.filter_cons_of_pos h,
            List.find?_cons_of_pos _ h, List.find?_cons_of_pos _ h]
      · rw [List.filter_cons_of_neg (by simpa using h),
            List.find?_cons_of_neg _ (by simpa using h)]
        exact ih

/-- C2: while a current project identifier exists, an observed bulk
remaining-tasks response (a sequence of `{projectId, count}` records,
at most one of which carries the current id, as "the record" in the
claim presupposes) updates Remaining Task Count to the count of the
record whose `projectId` equals the current id, exactly when that record
exists and its `count` field is defined; and records for other project
identifiers have no effect (dropping them changes nothing). -/
theorem c2_bulk_count_update (tag url : String)
    (recs : List (String × Option Json)) (pid : String) (st : ScriptState)
    (hurl : strIncludes url bulkRemainingTasksPath = true)
    (hpid : getProjectIdFromURL (pathOf st.href) = some pid)
    (huniq : (recs.filter (fun r => r.1 == pid)).length ≤ 1) :
    ((interceptBody tag url (some (Json.arr (recs.map encodeBulkRecord)))
        st).remainingTaskCount =
      (match recs.find? (fun r => r.1 == pid) with
       | some (_, some c) => some c
       | some (_, none) => st.remainingTaskCount
       | none => st.remainingTaskCount)) ∧
    (interceptBody tag url (some (Json.arr (recs.map encodeBulkRecord)))
        st).remainingTaskCount =
      (interceptBody tag url
        (some (Json.arr ((recs.filter (fun r => r.1 == pid)).map
          encodeBulkRecord))) st).remainingTaskCount := by
  constructor
  · rw [intercept_bulk_encode tag url recs pid st hurl hpid]
    cases hf : recs.find? (fun r => r.1 == pid) with
    | none => rfl
    | some r =>
        cases r with
        | mk p c =>
            cases c with
            | none => rfl
            | some cv => simp [updateTextbox_remainingTaskCount]
  · rw [intercept_bulk_encode tag url recs pid st hurl hpid,
        intercept_bulk_encode tag url (recs.filter (fun r => r.1 == pid))
          pid st hurl hpid,
        find?_filter_same]

/-- Witness for C2 on the specification's concrete example: with current
project "P1" and body `[{projectId:"P1",count:5},{projectId:"P2",count:9}]`,
the stored count becomes 5. -/
theorem c2_bulk_count_update_witness :
    (interceptBody "fetch" bulkRemainingTasksUrl
        (some (Json.arr
          (([("P1", some (Json.num 5)), ("P2", some (Json.num 9))] :
              List (String × Option Json)).map encodeBulkRecord)))
        (initState projectP1Url)).remainingTaskCount = some (Json.num 5) :=
  ((c2_bulk_count_update "fetch" bulkRemainingTasksUrl
      [("P1", some (Json.num 5)), ("P2", some (Json.num 9))] "P1"
      (initState projectP1Url) (by decide) (by decide) (by decide)).1).trans
    (by decide)

/-! ### C1: empty-queue reason resolution -/

/-- First binding for a key in an association list. -/
def assocFind {α : Type} (l : List (String × α)) (k : String) : Option α :=
  (l.find? (fun p => p.1 == k)).map (fun p => p.2)

/-- A per-project reason map `{ "-1": ..., "4": ... }` as JSON. -/
def encodeReasonMap (m : List (String × String)) : Json :=
  Json.obj (m.map (fun p => (p.1, Json.str p.2)))

/-- An `emptyQueueReasons` mapping as JSON. -/
def encodeReasons (rs : List (String × List (String × String))) : Json :=
  Json.obj (rs.map (fun p => (p.1, encodeReasonMap p.2)))

/-- A `logged_in_user` response body carrying the given reasons. -/
def liuBodyOf (rs : List (String × List (String × String))) : Json :=
  Json.obj [("lastEmptyQueueEvent",
             Json.obj [("emptyQueueReasons", encodeReasons rs)])]

/-- A project-detail response body carrying the given reasons at index 1. -/
def projBodyOf (rs : List (String × List (String × String))) : Json :=
  Json.arr [Json.obj [],
            Json.obj [("lastEmptyQueueEvent",
                       Json.obj [("emptyQueueReasons", encodeReasons rs)])]]

/-- The value the code stores: key "-1" wins when present *with a
non-empty value* (JS `||` skips falsy values), else key "4" when present
with a non-empty value, else the "N/A" marker; projects absent from the
mapping also yield "N/A". -/
def resolvedReason (rs : List (String × List (String × String)))
    (pid : String) : Json :=
  match assocFind rs pid with
  | none => Json.str "N/A"
  | some m =>
      match assocFind m "-1" with
      | some v =>
          if v ≠ "" then Json.str v
          else
            match assocFind m "4" with
            | some w => if w ≠ "" then Json.str w else Json.str "N/A"
            | none => Json.str "N/A"
      | none =>
          match assocFind m "4" with
          | some w => if w ≠ "" then Json.str w else Json.str "N/A"
          | none => Json.str "N/A"

theorem lookupField_map {α : Type} (l : List (String × α)) (f : α → Json)
    (k : String) :
    lookupField (l.map (fun p => (p.1, f p.2))) k = (assocFind l k).map f := by
  induction l with
  | nil => rfl
  | cons p rest ih =>
      by_cases h : p.1 = k
      · unfold assocFind
        rw [List.find?_cons_of_pos _ (by simpa using h)]
        simp [lookupField, h]
      · unfold assocFind
        rw [List.find?_cons_of_neg _ (by simpa using h)]
        unfold assocFind at ih
        simp [lookupField, h, ih]

theorem jsOrPick_encode (m : List (String × String)) :
    jsOrPick ((assocFind m "-1").map Json.str) ((assocFind m "4").map Json.str) =
      (match assocFind m "-1" with
       | some v =>
           if v ≠ "" then Json.str v
           else
             match assocFind m "4" with
             | some w => if w ≠ "" then Json.str w else Json.str "N/A"
             | none => Json.str "N/A"
       | none =>
           match assocFind m "4" with
           | some w => if w ≠ "" then Json.str w else Json.str "N/A"
           | none => Json.str "N/A") := by
  cases h1 : assocFind m "-1" with
  | none =>
      cases h4 : assocFind m "4" with
      | none => rfl
      | some w =>
          by_cases hw : w = ""
          · simp [jsOrPick, truthy, hw]
          · simp [jsOrPick, truthy, hw]
  | some v =>
      by_cases hv : v = ""
      · cases h4 : assocFind m "4" with
        | none => simp [jsOrPick, truthy, hv]
        | some w =>
            by_cases hw : w = ""
            · simp [jsOrPick, truthy, hv, hw]
            · simp [jsOrPick, truthy, hv, hw]
      · simp [jsOrPick, truthy, hv]

theorem applyReasons_encode (rs : List (String × List (String × String)))
    (pid : String) (st : ScriptState) :
    applyReasons (some (encodeReasons rs)) pid st =
      Except.ok (updateTextbox
        { st with emptyQueueReason := some (resolvedReason rs pid) }) := by
  unfold applyReasons
  show (Json.member (encodeReasons rs) pid >>= _) = _
  have h1 : Json.member (encodeReasons rs) pid =
      Except.ok ((assocFind rs pid).map encodeReasonMap) := by
    show Except.ok (lookupField (rs.map (fun p => (p.1, encodeReasonMap p.2))) pid) = _
    rw [lookupField_map]
  rw [h1, except_bind_ok]
  cases hf : assocFind rs pid with
  | none =>
      simp only [Option.map_none']
      rw [show truthy none = false from rfl]
      simp only [Bool.false_eq_true, if_false]
      unfold resolvedReason
      rw [hf]
  | some m =>
      simp only [Option.map_some']
      rw [show truthy (some (encodeReasonMap m)) = true from rfl]
      simp only [if_true]
      have hm1 : Json.member (encodeReasonMap m) "-1" =
          Except.ok ((assocFind m "-1").map Json.str) := by
        show Except.ok (lookupField (m.map (fun p => (p.1, Json.str p.2))) "-1") = _
        rw [lookupField_map]
      have hm4 : Json.member (encodeReasonMap m) "4" =
          Except.ok ((assocFind m "4").map Json.str) := by
        show Except.ok (lookupField (m.map (fun p => (p.1, Json.str p.2))) "4") = _
        rw [lookupField_map]
      show (Json.member (encodeReasonMap m) "-1" >>= _) = _
      rw [hm1, except_bind_ok]
      show (Json.member (encodeReasonMap m) "4" >>= _) = _
      rw [hm4, except_bind_ok]
      rw [jsOrPick_encode]
      unfold resolvedReason
      rw [hf]

theorem liuBody_encode (rs : List (String × List (String × String)))
    (pid : String) (st : ScriptState)
    (hpid : getProjectIdFromURL (pathOf st.href) = some pid) :
    liuBody (liuBodyOf rs) st =
      Except.ok (updateTextbox
        { st with emptyQueueReason := some (resolvedReason rs pid) }) := by
  unfold liuBody liuBodyOf
  rw [show truthy (some (Json.obj [("lastEmptyQueueEvent",
        Json.obj [("emptyQueueReasons", encodeReasons rs)])])) = true from rfl]
  simp only [if_true]
  rw [show Json.member (Json.obj [("lastEmptyQueueEvent",
        Json.obj [("emptyQueueReasons", encodeReasons rs)])]) "lastEmptyQueueEvent" =
      Except.ok (some (Json.obj [("emptyQueueReasons", encodeReasons rs)])) from by
        simp [Json.member, lookupField],
      except_bind_ok]
  rw [show truthy (some (Json.obj [("emptyQueueReasons", encodeReasons rs)])) = true
        from rfl]
  simp only [if_true]
  rw [show optMember (some (Json.obj [("emptyQueueReasons", encodeReasons rs)]))
        "emptyQueueReasons" = Except.ok (some (encodeReasons rs)) from by
        simp [optMember, Json.member, lookupField],
      except_bind_ok]
  rw [show truthy (some (encodeReasons rs)) = true from rfl]
  simp only [if_true]
  rw [hpid]
  exact applyReasons_encode rs pid st

theorem projBody_encode (rs : List (String × List (String × String)))
    (pid : String) (st : ScriptState)
    (hpid : getProjectIdFromURL (pathOf st.href) = some pid) :
    projBody (projBodyOf rs) st =
      Except.ok (updateTextbox
        { st with emptyQueueReason := some (resolvedReason rs pid) }) := by
  unfold projBody projBodyOf
  rw [hpid]
  show ((Json.obj [("lastEmptyQueueEvent",
          Json.obj [("emptyQueueReasons", encodeReasons rs)])]).member
        "lastEmptyQueueEvent" >>= _) = _
  rw [show Json.member (Json.obj [("lastEmptyQueueEvent",
        Json.obj [("emptyQueueReasons", encodeReasons rs)])]) "lastEmptyQueueEvent" =
      Except.ok (some (Json.obj [("emptyQueueReasons", encodeReasons rs)])) from by
        simp [Json.member, lookupField]]
  rw [except_bind_ok]
  rw [show truthy (some (Json.obj [("emptyQueueReasons", encodeReasons rs)])) = true
        from rfl]
  simp only [if_true]
  rw [show optMember (some (Json.obj [("emptyQueueReasons", encodeReasons rs)]))
        "emptyQueueReasons" = Except.ok (some (encodeReasons rs)) from by
        simp [optMember, Json.member, lookupField],
      except_bind_ok]
  rw [show truthy (some (encodeReasons rs)) = true from rfl]
  simp only [if_true]
  exact applyReasons_encode rs pid st

/-- C1 (amended): for every observed logged_in_user response (and
identically for element 1 of a project-detail response) carrying
`lastEmptyQueueEvent.emptyQueueReasons`, while a current project id
exists, the stored Empty Queue Reason becomes: the value at sub-key "-1"
whenever that sub-key is present *with a non-empty value*, otherwise the
value at sub-key "4" whenever present *with a non-empty value*,
otherwise the unknown marker "N/A"; and "N/A" when the current id is not
a key of the mapping. (JS `||` selects on truthiness, so an empty-string
reason is skipped rather than returned; that is the only deviation from
the claim as stated.) -/
theorem c1_reason_resolution (tag url1 url2 : String)
    (rs : List (String × List (String × String))) (pid : String)
    (st : ScriptState)
    (hpid : getProjectIdFromURL (pathOf st.href) = some pid)
    (h1a : strIncludes url1 bulkRemainingTasksPath = false)
    (h1b : matchesLoggedInUser url1 = true)
    (h2a : strIncludes url2 bulkRemainingTasksPath = false)
    (h2b : matchesLoggedInUser url2 = false)
    (h2c : matchesProjectDetail url2 = true) :
    (interceptBody tag url1 (some (liuBodyOf rs)) st).emptyQueueReason =
      some (resolvedReason rs pid) ∧
    (interceptBody tag url2 (some (projBodyOf rs)) st).emptyQueueReason =
      some (resolvedReason rs pid) := by
  constructor
  · unfold interceptBody
    rw [h1a, h1b]
    simp only [Bool.false_eq_true, if_false, if_true]
    simp only [liuBody_encode rs pid st hpid, runCatch]
    rw [updateTextbox_emptyQueueReason]
  · unfold interceptBody
    rw [h2a, h2b, h2c]
    simp only [Bool.false_eq_true, if_false, if_true]
    simp only [projBody_encode rs pid st hpid, runCatch]
    rw [updateTextbox_emptyQueueReason]

/-- Witness for C1 on the specification's examples: sub-key "-1" wins
when both are present, "4" is used when "-1" is absent, a mapping
without the current project yields the unknown marker. -/
theorem c1_reason_resolution_witness :
    ((interceptBody "fetch" "https://app.outlier.ai/internal/logged_in_user"
        (some (liuBodyOf [("P1", [("-1", "A"), ("4", "B")])]))
        (initState projectP1Url)).emptyQueueReason = some (Json.str "A")) ∧
    ((interceptBody "fetch" "https://app.outlier.ai/internal/logged_in_user"
        (some (liuBodyOf [("P1", [("4", "B")])]))
        (initState projectP1Url)).emptyQueueReason = some (Json.str "B")) ∧
    ((interceptBody "XHR" "https://app.outlier.ai/projects/P1?pageLoadId=7"
        (some (projBodyOf [("P9", [("-1", "A")])]))
        (initState projectP1Url)).emptyQueueReason = some (Json.str "N/A")) :=
  ⟨((c1_reason_resolution "fetch"
      "https://app.outlier.ai/internal/logged_in_user"
      "https://app.outlier.ai/projects/P1?pageLoadId=7"
      [("P1", [("-1", "A"), ("4", "B")])] "P1" (initState projectP1Url)
      (by decide) (by decide) (by decide) (by decide) (by decide)
      (by decide)).1).trans (by decide),
   ((c1_reason_resolution "fetch"
      "https://app.outlier.ai/internal/logged_in_user"
      "https://app.outlier.ai/projects/P1?pageLoadId=7"
      [("P1", [("4", "B")])] "P1" (initState projectP1Url)
      (by decide) (by decide) (by decide) (by decide) (by decide)
      (by decide)).1).trans (by decide),
   ((c1_reason_resolution "XHR"
      "https://app.outlier.ai/internal/logged_in_user"
      "https://app.outlier.ai/projects/P1?pageLoadId=7"
      [("P9", [("-1", "A")])] "P1" (initState projectP1Url)
      (by decide) (by decide) (by decide) (by decide) (by decide)
      (by decide)).2).trans (by decide)⟩

/-- C1 counterexample: with
`emptyQueueReasons = {"P1": {"-1": "", "4": "B"}}` and current project
"P1", sub-key "-1" *is present*, so the claim as stated requires the
stored reason to become its value "" — but the code stores "B", because
JS `||` treats the empty string as falsy and falls through to "4". -/
theorem c1_counterexample :
    (interceptBody "fetch" "https://app.outlier.ai/internal/logged_in_user"
        (some (liuBodyOf [("P1", [("-1", ""), ("4", "B")])]))
        (initState projectP1Url)).emptyQueueReason = some (Json.str "B") ∧
    ¬((interceptBody "fetch" "https://app.outlier.ai/internal/logged_in_user"
        (some (liuBodyOf [("P1", [("-1", ""), ("4", "B")])]))
        (initState projectP1Url)).emptyQueueReason = some (Json.str "")) := by
  decide

/-! ### C7: credential extractor -/

/-- A single scan step that cannot match just skips one character. -/
theorem csrfScan_cons_no (ok : Bool) (c : Char) (l : List Char)
    (hno : ok = false ∨ csrfMatchAt (c :: l) = none) :
    csrfScan ok (c :: l) = csrfScan (c == ' ') l := by
  have hnone : (if ok = true then csrfMatchAt (c :: l) else none) = none := by
    cases hno with
    | inl h => rw [h]; rfl
    | inr h =>
        cases ok with
        | false => rfl
        | true => simpa using h
  simp only [csrfScan, hnone]

/-- A scan step that matches returns the captured value. -/
theorem csrfScan_cons_hit (c : Char) (l v : List Char)
    (hm : csrfMatchAt (c :: l) = some v) :
    csrfScan true (c :: l) = some v := by
  have h1 : csrfScan true (c :: l) =
      (match (if true = true then csrfMatchAt (c :: l) else none) with
       | some w => some w
       | none => csrfScan (c == ' ') l) := rfl
  rw [h1, if_pos rfl, hm]

/-- With the ok-flag down, a run of non-space characters is skipped
without the flag ever rising. -/
theorem csrfScan_false_nospace (l : List Char) (hl : ∀ c ∈ l, c ≠ ' ')
    (t : List Char) : csrfScan false (l ++ t) = csrfScan false t := by
  induction l with
  | nil => rfl
  | cons c l ih =>
      show csrfScan false (c :: (l ++ t)) = _
      rw [csrfScan_cons_no false c (l ++ t) (Or.inl rfl)]
      have hc : (c == ' ') = false := by
        have := hl c (List.mem_cons_self c l)
        simpa using this
      rw [hc]
      exact ih (fun x hx => hl x (List.mem_cons_of_mem c hx))

/-- A cookie separator re-arms the ok-flag. -/
theorem csrfScan_sep (t : List Char) :
    csrfScan false (';' :: ' ' :: t) = csrfScan true t := by
  rw [csrfScan_cons_no false ';' (' ' :: t) (Or.inl rfl)]
  rw [show ((';' : Char) == ' ') = false from rfl]
  rw [csrfScan_cons_no false ' ' t (Or.inl rfl)]
  rw [show ((' ' : Char) == ' ') = true from rfl]

/-- A pattern `pre ++ "="` whose stem contains no `=` is not a prefix of
`k ++ "=" ++ rest` for any `=`-free name `k` different from the stem. -/
theorem stem_ne_no_match (pre : List Char) :
    ∀ (k rest : List Char), (∀ c ∈ pre, c ≠ '=') → (∀ c ∈ k, c ≠ '=') →
      k ≠ pre → ((pre ++ ['=']).isPrefixOf (k ++ '=' :: rest)) = false := by
  induction pre with
  | nil =>
      intro k rest _ hkeq hne
      cases k with
      | nil => exact absurd rfl hne
      | cons c k1 =>
          have hc : c ≠ '=' := hkeq c (List.mem_cons_self c k1)
          show ((('=' :: []).isPrefixOf (c :: (k1 ++ '=' :: rest)))) = false
          simp [List.isPrefixOf]
          exact fun hh => absurd hh.symm hc
  | cons p pre1 ih =>
      intro k rest hpeq hkeq hne
      cases k with
      | nil =>
          have hp : p ≠ '=' := hpeq p (List.mem_cons_self p pre1)
          show ((p :: (pre1 ++ ['='])).isPrefixOf ('=' :: rest)) = false
          simp [List.isPrefixOf]
          exact fun hh => absurd hh hp
      | cons c k1 =>
          show ((p :: (pre1 ++ ['='])).isPrefixOf (c :: (k1 ++ '=' :: rest))) = false
          by_cases hpc : p = c
          · subst hpc
            have hrec := ih k1 rest
              (fun x hx => hpeq x (List.mem_cons_of_mem p hx))
              (fun x hx => hkeq x (List.mem_cons_of_mem _ hx))
              (fun hh => hne (by rw [hh]))
            simp [List.isPrefixOf, hrec]
          · simp [List.isPrefixOf]
            exact fun hh => absurd hh hpc

/-- The literal `_csrf=` is not a prefix of `k=...` for any well-formed
cookie name `k ≠ "_csrf"` (names contain no `=`). -/
theorem csrf_pattern_no_match (k : List Char) (rest : List Char)
    (hkeq : ∀ c ∈ k, c ≠ '=') (hne : k ≠ "_csrf".data) :
    (("_csrf=".data).isPrefixOf (k ++ '=' :: rest)) = false := by
  have hsplit : "_csrf=".data = "_csrf".data ++ ['='] := rfl
  rw [hsplit]
  exact stem_ne_no_match ("_csrf".data) k rest (by decide) hkeq hne

theorem isPrefixOf_append_self (l r : List Char) :
    l.isPrefixOf (l ++ r) = true := by
  induction l with
  | nil => simp [List.isPrefixOf]
  | cons c l ih => simp [List.isPrefixOf, ih]

theorem takeWhile_append_stop (p : Char → Bool) (v t : List Char)
    (hv : ∀ c ∈ v, p c = true)
    (ht : match t with | [] => True | c :: _ => p c = false) :
    (v ++ t).takeWhile p = v := by
  induction v with
  | nil =>
      cases t with
      | nil => rfl
      | cons c t2 =>
          show (c :: t2).takeWhile p = []
          simp only [List.takeWhile_cons]
          rw [show p c = false from ht]
          rfl
  | cons c v ih =>
      show ((c :: (v ++ t)).takeWhile p) = c :: v
      simp only [List.takeWhile_cons]
      rw [hv c (List.mem_cons_self c v)]
      rw [ih (fun x hx => hv x (List.mem_cons_of_mem c hx))]
      rfl

/-- Scanning past a whole entry whose name is not `_csrf`. -/
theorem csrfScan_entry_skip (ok : Bool) (k v : String) (t : List Char)
    (hk0 : k ≠ "") (hkeq : ∀ c ∈ k.data, c ≠ '=')
    (hksp : ∀ c ∈ k.data, c ≠ ' ') (hvsp : ∀ c ∈ v.data, c ≠ ' ')
    (hne : k ≠ "_csrf") :
    csrfScan ok (k.data ++ '=' :: (v.data ++ t)) = csrfScan false t := by
  cases hkd : k.data with
  | nil =>
      exact absurd (String.ext (hkd.trans rfl)) hk0
  | cons c1 k1 =>
      have hkeq1 : ∀ c ∈ c1 :: k1, c ≠ '=' := by rw [← hkd]; exact hkeq
      have hne1 : c1 :: k1 ≠ "_csrf".data := by
        intro hh
        exact hne (String.ext (hkd.trans hh))
      have hm : csrfMatchAt (c1 :: (k1 ++ '=' :: (v.data ++ t))) = none := by
        unfold csrfMatchAt
        have hnp := csrf_pattern_no_match (c1 :: k1) (v.data ++ t) hkeq1 hne1
        rw [show (c1 :: (k1 ++ '=' :: (v.data ++ t))) =
              ((c1 :: k1) ++ '=' :: (v.data ++ t)) from rfl, hnp]
        rfl
      show csrfScan ok (c1 :: (k1 ++ '=' :: (v.data ++ t))) = csrfScan false t
      rw [csrfScan_cons_no ok c1 _ (Or.inr hm)]
      have hc1 : (c1 == ' ') = false := by
        have := hksp c1 (by rw [hkd]; exact List.mem_cons_self c1 k1)
        simpa using this
      rw [hc1]
      rw [show k1 ++ '=' :: (v.data ++ t) = (k1 ++ '=' :: v.data) ++ t by simp]
      apply csrfScan_false_nospace
      intro c hc
      rcases List.mem_append.mp hc with hc | hc
      · exact hksp c (by rw [hkd]; exact List.mem_cons_of_mem c1 hc)
      · rcases List.mem_cons.mp hc with hc | hc
        · rw [hc]; decide
        · exact hvsp c hc

/-- Scanning the `_csrf` entry with a non-empty value yields that value. -/
theorem csrfScan_entry_hit (v : String) (t : List Char)
    (hv : v ≠ "") (hvsc : ∀ c ∈ v.data, c ≠ ';')
    (ht : t = [] ∨ ∃ t2, t = ';' :: t2) :
    csrfScan true ("_csrf".data ++ '=' :: (v.data ++ t)) = some v.data := by
  have hm : csrfMatchAt ("_csrf=".data ++ (v.data ++ t)) = some v.data := by
    unfold csrfMatchAt
    rw [isPrefixOf_append_self]
    simp only [if_true]
    have hd : ("_csrf=".data ++ (v.data ++ t)).drop 6 = v.data ++ t :=
      List.drop_left ("_csrf=".data) (v.data ++ t)
    rw [hd]
    have htw : (v.data ++ t).takeWhile (fun c => !(c == ';')) = v.data := by
      apply takeWhile_append_stop
      · intro c hc
        have := hvsc c hc
        simpa using this
      · cases ht with
        | inl h => rw [h]; trivial
        | inr h => obtain ⟨t2, h2⟩ := h; rw [h2]; simp
    rw [htw]
    have hvne : v.data.isEmpty = false := by
      cases hvd : v.data with
      | nil => exact absurd (String.ext (hvd.trans rfl)) hv
      | cons a b => rfl
    rw [hvne]
    rfl
  show csrfScan true ('_' :: ("csrf=".data ++ (v.data ++ t))) = some v.data
  apply csrfScan_cons_hit
  exact hm

/-- Scanning the `_csrf` entry with an empty value finds nothing (the
regex requires a non-empty capture) and moves on. -/
theorem csrfScan_entry_empty (t : List Char)
    (ht : t = [] ∨ ∃ t2, t = ';' :: t2) :
    csrfScan true ("_csrf".data ++ '=' :: t) = csrfScan false t := by
  have hm : csrfMatchAt ("_csrf=".data ++ t) = none := by
    unfold csrfMatchAt
    rw [isPrefixOf_append_self]
    simp only [if_true]
    have hd : ("_csrf=".data ++ t).drop 6 = t := List.drop_left ("_csrf=".data) t
    rw [hd]
    have htw : t.takeWhile (fun c => !(c == ';')) = [] := by
      cases ht with
      | inl h => rw [h]; rfl
      | inr h =>
          obtain ⟨t2, h2⟩ := h
          rw [h2]
          simp only [List.takeWhile_cons]
          rfl
    rw [htw]
    rfl
  show csrfScan true ('_' :: ("csrf=".data ++ t)) = csrfScan false t
  rw [csrfScan_cons_no true '_' ("csrf=".data ++ t) (Or.inr hm)]
  rw [show (('_' : Char) == ' ') = false from rfl]
  exact csrfScan_false_nospace ("csrf=".data) (by decide) t

/-- Well-formed browser cookies: non-empty names without `=`, spaces or
semicolons; values without spaces or semicolons. -/
def wellFormedCookies (cs : List (String × String)) : Prop :=
  ∀ p ∈ cs, p.1 ≠ "" ∧ (∀ c ∈ p.1.data, c ≠ '=' ∧ c ≠ ' ' ∧ c ≠ ';') ∧
    (∀ c ∈ p.2.data, c ≠ ' ' ∧ c ≠ ';')

theorem renderCookies_cons_data (p : String × String)
    (rest : List (String × String)) :
    (renderCookies (p :: rest)).data =
      p.1.data ++ '=' :: (p.2.data ++
        (match rest with
         | [] => []
         | _ :: _ => ';' :: ' ' :: (renderCookies rest).data)) := by
  cases rest with
  | nil =>
      show (p.1 ++ "=" ++ p.2).data = p.1.data ++ '=' :: (p.2.data ++ [])
      simp
  | cons q rest2 =>
      show (p.1 ++ "=" ++ p.2 ++ "; " ++ renderCookies (q :: rest2)).data =
        p.1.data ++ '=' ::
          (p.2.data ++ (';' :: ' ' :: (renderCookies (q :: rest2)).data))
      simp

/-- One rendered entry followed by tail `t`: the scan returns this
entry's value when it is the first `_csrf` cookie with a non-empty
value, and otherwise proceeds into `t` with the ok-flag down. -/
theorem csrfScan_entry_step (p : String × String) (t : List Char)
    (hk0 : p.1 ≠ "") (hkc : ∀ c ∈ p.1.data, c ≠ '=' ∧ c ≠ ' ' ∧ c ≠ ';')
    (hvc : ∀ c ∈ p.2.data, c ≠ ' ' ∧ c ≠ ';')
    (hts : t = [] ∨ ∃ t2, t = ';' :: t2) :
    csrfScan true (p.1.data ++ '=' :: (p.2.data ++ t)) =
      (if (p.1 == "_csrf" && !(p.2 == "")) = true then some p.2.data
       else csrfScan false t) := by
  by_cases hk : p.1 = "_csrf"
  · by_cases hv : p.2 = ""
    · rw [if_neg (by simp [hv])]
      rw [hk, hv]
      rw [show ("" : String).data = [] from rfl, List.nil_append]
      exact csrfScan_entry_empty t hts
    · rw [if_pos (by simp [hk, hv])]
      rw [hk]
      exact csrfScan_entry_hit p.2 t hv (fun c hc => (hvc c hc).2) hts
  · rw [if_neg (by simp [hk])]
    exact csrfScan_entry_skip true p.1 p.2 t hk0 (fun c hc => (hkc c hc).1)
      (fun c hc => (hkc c hc).2.1) (fun c hc => (hvc c hc).1) hk

/-- The regex scan over a rendered cookie string finds exactly the value
of the first `_csrf` cookie with a non-empty value. -/
theorem csrfScan_render (cs : List (String × String))
    (hwf : wellFormedCookies cs) :
    csrfScan true (renderCookies cs).data =
      (cs.find? (fun p => p.1 == "_csrf" && !(p.2 == ""))).map
        (fun p => p.2.data) := by
  induction cs with
  | nil => rfl
  | cons p rest ih =>
      obtain ⟨hk0, hkc, hvc⟩ := hwf p (List.mem_cons_self p rest)
      have hih := ih (fun q hq => hwf q (List.mem_cons_of_mem p hq))
      cases rest with
      | nil =>
          rw [renderCookies_cons_data]
          show csrfScan true (p.1.data ++ '=' :: (p.2.data ++ [])) = _
          rw [csrfScan_entry_step p [] hk0 hkc hvc (Or.inl rfl)]
          by_cases hp : (p.1 == "_csrf" && !(p.2 == "")) = true
          · rw [if_pos hp, List.find?_cons_of_pos _ (by exact hp)]
            rfl
          · rw [if_neg hp, List.find?_cons_of_neg _ (by exact hp)]
            rfl
      | cons q r2 =>
          rw [renderCookies_cons_data]
          show csrfScan true (p.1.data ++ '=' ::
            (p.2.data ++ (';' :: ' ' :: (renderCookies (q :: r2)).data))) = _
          rw [csrfScan_entry_step p
                (';' :: ' ' :: (renderCookies (q :: r2)).data) hk0 hkc hvc
                (Or.inr ⟨' ' :: (renderCookies (q :: r2)).data, rfl⟩)]
          rw [csrfScan_sep, hih]
          by_cases hp : (p.1 == "_csrf" && !(p.2 == "")) = true
          · rw [if_pos hp]
            have hfind : List.find?
                (fun x : String × String => x.1 == "_csrf" && !(x.2 == ""))
                (p :: q :: r2) = some p :=
              List.find?_cons_of_pos _ (by exact hp)
            rw [hfind]
            rfl
          · rw [if_neg hp]
            have hfind : List.find?
                (fun x : String × String => x.1 == "_csrf" && !(x.2 == ""))
                (p :: q :: r2) =
                List.find?
                  (fun x : String × String => x.1 == "_csrf" && !(x.2 == ""))
                  (q :: r2) :=
              List.find?_cons_of_neg _ (by exact hp)
            rw [hfind]

/-- C7 (amended): for every well-formed cookie list whose `_csrf` values
are well-formed percent-encodings, the extractor terminates without
throwing and returns the URL-decoded value of the first `_csrf` cookie
carrying a non-empty value, or the empty string when there is none; it
is a pure function, hence side-effect-free. (Without the decodability
proviso the extractor *can* throw: `decodeURIComponent` raises a
URIError on a malformed escape — see the counterexample.) -/
theorem c7_csrf_extractor (cs : List (String × String))
    (hwf : wellFormedCookies cs)
    (hdec : ∀ p ∈ cs, p.1 = "_csrf" → (decodeURIComponent p.2).isSome = true) :
    getCsrfToken (renderCookies cs) =
      Except.ok (match cs.find? (fun p => p.1 == "_csrf" && !(p.2 == "")) with
        | some p => (decodeURIComponent p.2).getD ""
        | none => "") := by
  unfold getCsrfToken
  rw [csrfScan_render cs hwf]
  cases hf : cs.find? (fun p => p.1 == "_csrf" && !(p.2 == "")) with
  | none => rfl
  | some p =>
      have hmem := List.mem_of_find?_eq_some hf
      have hcsrf : p.1 = "_csrf" := by
        have hpred := List.find?_some hf
        simp at hpred
        exact hpred.1
      obtain ⟨r, hr⟩ := Option.isSome_iff_exists.mp (hdec p hmem hcsrf)
      show (match decodeURIComponent (String.mk p.2.data) with
            | some s => Except.ok s
            | none => Except.error "URIError") =
          Except.ok ((decodeURIComponent p.2).getD "")
      rw [show String.mk p.2.data = p.2 from rfl, hr]
      rfl

/-- Witness for C7: a cookie string with an unrelated cookie and an
encoded `_csrf` value decodes correctly. -/
theorem c7_csrf_extractor_witness :
    getCsrfToken (renderCookies [("a", "b"), ("_csrf", "x%2Fy")]) =
      Except.ok "x/y" :=
  (c7_csrf_extractor [("a", "b"), ("_csrf", "x%2Fy")]
      (by unfold wellFormedCookies; decide)
      (by decide)).trans (by decide)

/-- C7 counterexample: the claim says the extractor never throws, but on
the cookie string `_csrf=%` the regex matches and `decodeURIComponent`
throws a URIError on the malformed escape. -/
theorem c7_counterexample :
    getCsrfToken "_csrf=%" = Except.error "URIError" := by decide
